import Mathlib

/-
Verification of the persistence / hierarchy-resolution engine of the
blog multi-agent system.

Shallow embedding of:
  * src/db/models.py            (row types of posts, categories, tags, files,
                                 post_tags, post_categories)
  * src/db/repositories/post.py (PostRepository.upsert_post)
  * src/db/repositories/file.py (FileRepository.upsert_file_record)
  * src/agents/uploading_agent.py
        (UploadingAgent._save_article, _replace_content_urls,
         _save_file_records, _get_content_type,
         _resolve_category_hierarchy_with_session, _link_post_to_categories)

The relational store is modelled as lists of rows; SQL `INSERT ... ON
CONFLICT (natural key) DO UPDATE` is modelled as find-first on the natural
key followed by either a pointwise update (conflict) or an append (insert).
Machine-level concerns (column widths of VARCHAR(n) columns, NOT NULL
checks) are modelled as explicit checks that make an upsert fail, mirroring
the PostgreSQL errors the same statements raise.

Parts of the repository that are referenced from the embedded files but are
not part of the given sources (the snowflake ID generator, the session
factory `get_db_session`, `CategoryRepository`, `TagRepository`, the
pydantic `PostSchema`, and the `config` constants) are modelled from the
spec; each such definition carries a doc comment starting with
`Modelled from the spec:`.
-/

set_option autoImplicit false

namespace BlogMAS

/-! ## String helpers

Python string/`pathlib` operations used by the agent, implemented over
`List Char` with structural recursion so that everything reduces in the
kernel.  Python character-level slicing coincides with `List Char`
operations on the decoded code points. -/

/-- Character list of a string. -/
def chars (s : String) : List Char := s.data

/-- String from a character list. -/
def ofChars (l : List Char) : String := ⟨l⟩

/-- Python `len(s)` (number of code points). -/
def strLen (s : String) : Nat := s.data.length

/-- Python `s[:n]` (slice of the first `n` code points). -/
def strTake (s : String) (n : Nat) : String := ⟨s.data.take n⟩

/-- Python `s.lower()` (ASCII-accurate; the agent only lowercases
author names and file extensions). -/
def lowerString (s : String) : String := ⟨s.data.map Char.toLower⟩

/-- Python `s.replace(" ", "-")`. -/
def spacesToHyphens (s : String) : String :=
  ⟨s.data.map (fun c => if c = ' ' then '-' else c)⟩

/-- Split a character list on a separator character. -/
def splitOnChar (c : Char) : List Char → List (List Char)
  | [] => [[]]
  | x :: xs =>
    let r := splitOnChar c xs
    if x = c then [] :: r
    else
      match r with
      | [] => [[x]]
      | p :: ps => (x :: p) :: ps

/-- Python `pathlib.Path(p).name`: the part after the last `/`. -/
def pathName (p : String) : String :=
  ⟨(splitOnChar '/' p.data).getLastD []⟩

/-- Python `pathlib.Path(p).suffix.lstrip(".")`: the extension of the last
path component without its dot.  `Path(name).suffix` is `name[i:]` for the
last `.` at index `i` when `0 < i < len(name) - 1`, else the empty
string. -/
def extOf (p : String) : String :=
  let name := (splitOnChar '/' p.data).getLastD []
  let parts := splitOnChar '.' name
  match parts with
  | [] => ""
  | [_] => ""
  | [[], _] => ""
  | _ => ⟨parts.getLastD []⟩

/-! ## Data model (src/db/models.py)

One structure per table.  `seq` columns (plain autoincrement counters that
nothing in the embedded code reads) are omitted.  The `deleted_at`
soft-delete marker of `SoftDeleteMixin` is modelled as a `Bool`; timestamps
are modelled as `Nat` clock ticks supplied by the caller. -/

/-- Row of the `posts` table. -/
structure PostRow where
  id : Nat
  group_id : Option Nat
  level : Nat
  parent_id : Option Nat
  priority : Nat
  slug : String
  title : String
  content : Option String
  category_id : Option Nat
  user_id : Nat
  description : Option String
  meta_title : Option String
  meta_description : Option String
  og_image_url : Option String
  og_image_alt : Option String
  status : String
  created_at : Nat
  updated_at : Nat
  deleted : Bool
  deriving Repr, DecidableEq

/-- Row of the `categories` table. -/
structure CategoryRow where
  id : Nat
  group_id : Option Nat
  level : Nat
  priority : Nat
  parent_id : Option Nat
  user_id : Nat
  title : String
  created_at : Nat
  updated_at : Nat
  deleted : Bool
  deriving Repr, DecidableEq

/-- Row of the `files` table. -/
structure FileRow where
  id : Nat
  user_id : Option Nat
  post_id : Option Nat
  content_type : Option String
  ext : Option String
  original_filename : String
  stored_name : String
  s3_key : Option String
  stored_uri : String
  file_size : Option Nat
  is_thumbnail : Bool
  created_at : Nat
  updated_at : Nat
  deleted : Bool
  deriving Repr, DecidableEq

/-- Row of the `tags` table. -/
structure TagRow where
  id : Nat
  title : String
  created_at : Nat
  updated_at : Nat
  deleted : Bool
  deriving Repr, DecidableEq

/-- Row of the `post_tags` junction table. -/
structure PostTagRow where
  post_id : Nat
  tag_title : String
  created_at : Nat
  updated_at : Nat
  deleted : Bool
  deriving Repr, DecidableEq

/-- Row of the `post_categories` junction table. -/
structure PostCategoryRow where
  post_id : Nat
  category_id : Nat
  created_at : Nat
  updated_at : Nat
  deleted : Bool
  deriving Repr, DecidableEq

/-- The relational store: the six tables touched by a publication. -/
structure Store where
  posts : List PostRow
  categories : List CategoryRow
  tags : List TagRow
  postTags : List PostTagRow
  postCategories : List PostCategoryRow
  files : List FileRow
  deriving Repr, DecidableEq

/-- The empty store. -/
def Store.empty : Store := ⟨[], [], [], [], [], []⟩

/-- Errors raised by the database for an individual SQL statement:
value-too-long for a `VARCHAR(n)` column, NOT NULL violation, or an invalid
value for an enum column. -/
inductive DbErr
  | valueTooLong
  | notNullViolation
  | invalidEnum
  deriving Repr, DecidableEq

/-- Length bound of an optional `VARCHAR(n)` column. -/
def optLenLe (v : Option String) (n : Nat) : Bool :=
  match v with
  | some s => strLen s ≤ n
  | none => true

/-! ## Snowflake IDs

`utils/snowflake.generate_id` is used by both repositories but its source
is not part of the given files. -/

/-- Modelled from the spec: `utils/snowflake.generate_id` (not among the
given sources) produces globally unique, monotonically increasing 64-bit
identifiers, never reusing an issued ID (spec section 4.1).  The generator
is modelled as an explicitly threaded counter: a call returns the current
counter value as the fresh ID and advances the counter.  Only uniqueness
and freshness matter to the claims settled here; the timestamp/worker/
sequence bit layout is not modelled. -/
def generateId (gen : Nat) : Nat × Nat := (gen, gen + 1)

/-! ## PostRepository.upsert_post (src/db/repositories/post.py, lines 174-248)

```
INSERT INTO posts (id, group_id, level, parent_id, user_id, title, slug,
                   content, description, category_id, status, meta_title,
                   meta_description, og_image_url, og_image_alt)
VALUES (:id, :id, 0, NULL, :user_id, :title, :slug, :content, :description,
        :category_id, :status, :meta_title, :meta_description,
        :og_image_url, :og_image_alt)
ON CONFLICT (user_id, slug) DO UPDATE SET
    title = EXCLUDED.title, content = EXCLUDED.content,
    description = EXCLUDED.description, category_id = EXCLUDED.category_id,
    status = EXCLUDED.status, meta_title = EXCLUDED.meta_title,
    meta_description = EXCLUDED.meta_description,
    og_image_url = EXCLUDED.og_image_url,
    og_image_alt = EXCLUDED.og_image_alt,
    updated_at = CURRENT_TIMESTAMP
RETURNING id
```
The `(user_id, slug)` conflict target is the spec's idempotency key,
unique among non-deleted rows (spec section 3). -/

/-- Natural-key match for the posts conflict target. -/
def postKeyMatch (u : Nat) (slug : String) (r : PostRow) : Bool :=
  r.user_id = u ∧ r.slug = slug ∧ r.deleted = false

/-- Column checks the insert has to pass: `VARCHAR(n)` widths of
`models.py` (`slug`/`title` 255, `meta_title` 70, `meta_description` 170,
`og_image_alt` 125) and validity of the `status` enum value. -/
def postRowChecks (title slug : String) (status : String)
    (meta_title meta_description og_image_alt : Option String) : Option DbErr :=
  if ¬ (strLen title ≤ 255 ∧ strLen slug ≤ 255 ∧ optLenLe meta_title 70 ∧
        optLenLe meta_description 170 ∧ optLenLe og_image_alt 125) then
    some .valueTooLong
  else if ¬ (status = "public" ∨ status = "private" ∨ status = "follower") then
    some .invalidEnum
  else
    none

/-- The conflict-update clause applied to a row (it is applied exactly to
the rows matching the conflict target). -/
def postConflictUpdate (u : Nat) (slug : String) (now : Nat)
    (title : String) (content description : Option String)
    (category_id : Option Nat) (status : String)
    (meta_title meta_description og_image_url og_image_alt : Option String)
    (r : PostRow) : PostRow :=
  if postKeyMatch u slug r then
    { r with
      title := title
      content := content
      description := description
      category_id := category_id
      status := status
      meta_title := meta_title
      meta_description := meta_description
      og_image_url := og_image_url
      og_image_alt := og_image_alt
      updated_at := now }
  else r

/-- `PostRepository.upsert_post`.  `generate_id()` is called before the
statement executes, so the generator advances even when the statement
conflicts or fails; the second component of the result is the new
generator state. -/
def upsertPost (s : Store) (gen now : Nat) (user_id : Nat)
    (title slug : String) (content description : Option String)
    (category_id : Option Nat) (status : String)
    (meta_title meta_description og_image_url og_image_alt : Option String) :
    Except DbErr (Store × Nat) × Nat :=
  let (post_id, gen') := generateId gen
  match postRowChecks title slug status meta_title meta_description og_image_alt with
  | some e => (.error e, gen')
  | none =>
    match s.posts.find? (postKeyMatch user_id slug) with
    | some r =>
      (.ok ({ s with
                posts := s.posts.map (postConflictUpdate user_id slug now title
                  content description category_id status meta_title
                  meta_description og_image_url og_image_alt) },
            r.id), gen')
    | none =>
      let row : PostRow :=
        { id := post_id
          group_id := some post_id
          level := 0
          parent_id := none
          priority := 100
          slug := slug
          title := title
          content := content
          category_id := category_id
          user_id := user_id
          description := description
          meta_title := meta_title
          meta_description := meta_description
          og_image_url := og_image_url
          og_image_alt := og_image_alt
          status := status
          created_at := now
          updated_at := now
          deleted := false }
      (.ok ({ s with posts := s.posts ++ [row] }, post_id), gen')

/-! ## FileRepository.upsert_file_record (src/db/repositories/file.py, lines 144-214)

```
INSERT INTO files (id, user_id, post_id, original_filename, stored_name,
                   stored_uri, s3_key, content_type, ext, file_size,
                   is_thumbnail)
VALUES (:id, :user_id, :post_id, :original_filename, :stored_name,
        :stored_uri, :s3_key, :content_type, :ext, :file_size,
        :is_thumbnail)
ON CONFLICT (user_id, stored_name) DO UPDATE SET
    post_id = EXCLUDED.post_id,
    original_filename = EXCLUDED.original_filename,
    stored_uri = EXCLUDED.stored_uri, s3_key = EXCLUDED.s3_key,
    content_type = EXCLUDED.content_type, ext = EXCLUDED.ext,
    file_size = EXCLUDED.file_size, is_thumbnail = EXCLUDED.is_thumbnail,
    updated_at = CURRENT_TIMESTAMP
RETURNING id
```
The parameter dictionary the source passes to this statement binds the
`:stored_uri` placeholder to the `s3_key` argument, not to the
`stored_uri` argument (file.py lines 206-207, flagged there with a TODO);
the embedding reproduces that binding, keeping the bypassed `stored_uri`
argument in the signature. -/

/-- Natural-key match for the files conflict target. -/
def fileKeyMatch (u : Nat) (stored_name : String) (r : FileRow) : Bool :=
  r.user_id = some u ∧ r.stored_name = stored_name ∧ r.deleted = false

/-- Column checks for the files insert: the `stored_uri` column is
`NOT NULL` (and, through the source's parameter binding, receives the
`s3_key` value), and the `VARCHAR(n)` widths of `models.py`
(`original_filename`/`stored_name` 255, `content_type` 100, `ext` 30). -/
def fileRowChecks (original_filename stored_name : String)
    (s3_key content_type ext : Option String) : Option DbErr :=
  if s3_key = none then some .notNullViolation
  else if ¬ (strLen original_filename ≤ 255 ∧ strLen stored_name ≤ 255 ∧
             optLenLe content_type 100 ∧ optLenLe ext 30) then
    some .valueTooLong
  else none

/-- The conflict-update clause of the files upsert; `stored_uri` receives
the `s3_key` value, mirroring the source's parameter binding. -/
def fileConflictUpdate (u : Nat) (stored_name : String) (now : Nat)
    (post_id : Nat) (original_filename : String) (s3_key : Option String)
    (content_type ext : Option String) (file_size : Option Nat)
    (is_thumbnail : Bool) (r : FileRow) : FileRow :=
  if fileKeyMatch u stored_name r then
    { r with
      post_id := some post_id
      original_filename := original_filename
      stored_uri := s3_key.getD ""
      s3_key := s3_key
      content_type := content_type
      ext := ext
      file_size := file_size
      is_thumbnail := is_thumbnail
      updated_at := now }
  else r

/-- `FileRepository.upsert_file_record`.  The `stored_uri` argument is
accepted but, as in the source, never reaches the statement: the column is
written from `s3_key`. -/
def upsertFileRecord (s : Store) (gen now : Nat) (user_id post_id : Nat)
    (original_filename stored_name : String) (stored_uri : String)
    (s3_key : Option String) (content_type ext : Option String)
    (file_size : Option Nat) (is_thumbnail : Bool) :
    Except DbErr (Store × Nat) × Nat :=
  let (file_id, gen') := generateId gen
  let _ := stored_uri
  match fileRowChecks original_filename stored_name s3_key content_type ext with
  | some e => (.error e, gen')
  | none =>
    match s.files.find? (fileKeyMatch user_id stored_name) with
    | some r =>
      (.ok ({ s with
                files := s.files.map (fileConflictUpdate user_id stored_name now
                  post_id original_filename s3_key content_type ext file_size
                  is_thumbnail) },
            r.id), gen')
    | none =>
      let row : FileRow :=
        { id := file_id
          user_id := some user_id
          post_id := some post_id
          content_type := content_type
          ext := ext
          original_filename := original_filename
          stored_name := stored_name
          s3_key := s3_key
          stored_uri := s3_key.getD ""
          file_size := file_size
          is_thumbnail := is_thumbnail
          created_at := now
          updated_at := now
          deleted := false }
      (.ok ({ s with files := s.files ++ [row] }, file_id), gen')

/-! ## Category resolution -/

/-- A category tree-position conflict: the offending title, the parent
recorded on the existing row, and the parent the resolved path implies
(spec section 7, FatalConflict). -/
structure CatConflict where
  title : String
  existingParent : Option Nat
  expectedParent : Option Nat
  deriving Repr, DecidableEq

/-- Modelled from the spec: `CategoryRepository.get_by_title` (the
`CategoryRepository` source is not among the given files) returns the
existing non-deleted category row for `(user, title)`; `(user_id, title)`
is unique among non-deleted rows (spec section 3). -/
def getByTitle (s : Store) (title : String) (u : Nat) : Option CategoryRow :=
  s.categories.find? (fun c => c.user_id = u ∧ c.title = title ∧ c.deleted = false)

/-- Modelled from the spec: the loop body of
`CategoryRepository.insert_category_hierarchy` (not among the given
sources), spec section 4.2: for each name in order, look up the existing
non-deleted `(owner, name)` row; if found, reuse its ID, but if its
recorded parent disagrees with the position in this path, surface a
FatalConflict instead of silently overwriting; if not found, create a new
row with a fresh ID, `level` = position in path, `parent_id` = previous
node's ID (none at position 0), `group_id` = root node's ID (self at
position 0).  The operation is all-or-nothing: an error discards every
row staged by earlier iterations (the caller keeps its original store).
The generator state is returned even on error, since issued IDs are never
reissued. -/
def insertCategoryHierarchyAux (u now : Nat) :
    List String → Store → Nat → Option Nat → Option Nat → Nat →
    Nat × Except CatConflict (Store × Option Nat)
  | [], s, gen, parent, _group, _level => (gen, .ok (s, parent))
  | name :: rest, s, gen, parent, group, level =>
    match getByTitle s name u with
    | some c =>
      if c.parent_id = parent then
        insertCategoryHierarchyAux u now rest s gen (some c.id)
          (if level = 0 then some c.id else group) (level + 1)
      else
        (gen, .error ⟨name, c.parent_id, parent⟩)
    | none =>
      let (cid, gen') := generateId gen
      let row : CategoryRow :=
        { id := cid
          group_id := if level = 0 then some cid else group
          level := level
          priority := 100
          parent_id := parent
          user_id := u
          title := name
          created_at := now
          updated_at := now
          deleted := false }
      insertCategoryHierarchyAux u now rest
        { s with categories := s.categories ++ [row] } gen' (some cid)
        (if level = 0 then some cid else group) (level + 1)

/-- Modelled from the spec: `CategoryRepository.insert_category_hierarchy`
(see `insertCategoryHierarchyAux`); returns the deepest (leaf) category ID,
`none` for an empty path. -/
def insertCategoryHierarchy (s : Store) (gen now : Nat)
    (categories : List String) (u : Nat) :
    Nat × Except CatConflict (Store × Option Nat) :=
  insertCategoryHierarchyAux u now categories s gen none none 0

/-- Hierarchy information the agent reports per resolved category
(`schema.CategoryInfo`; the field set is read off its construction in
`_resolve_category_hierarchy_with_session`). -/
structure CategoryInfo where
  id : Nat
  title : String
  level : Nat
  parent_id : Option Nat
  group_id : Option Nat
  user_id : Nat
  deriving Repr, DecidableEq

/-- The re-derivation loop of
`UploadingAgent._resolve_category_hierarchy_with_session` (uploading_agent.py
lines 700-720): for each `(level, name)` of `enumerate(categories)`, look
the row up by title; when found, append its ID (setting the group at level
0, advancing the parent), when not found, skip the name while `level`
still advances with the enumeration. -/
def buildChainAux (s : Store) (u : Nat) :
    List String → Nat → Option Nat → Option Nat →
    List Nat × List CategoryInfo
  | [], _, _, _ => ([], [])
  | name :: rest, level, parent, group =>
    match getByTitle s name u with
    | some c =>
      let group' := if level = 0 then some c.id else group
      let info : CategoryInfo :=
        { id := c.id
          title := name
          level := level
          parent_id := parent
          group_id := group'
          user_id := u }
      let (ids, infos) := buildChainAux s u rest (level + 1) (some c.id) group'
      (c.id :: ids, info :: infos)
    | none => buildChainAux s u rest (level + 1) parent group

/-- `UploadingAgent._resolve_category_hierarchy_with_session`
(uploading_agent.py lines 667-723).  An empty path returns an empty chain
and a `none` deepest ID without touching the store.  Otherwise the
hierarchy upsert runs first; the chain is then re-derived by title lookups
when the upsert's deepest ID is truthy (a Python `if deepest_id:`, so also
skipped for ID 0), and the returned deepest ID is the last chain element,
`none` for an empty chain.  A hierarchy conflict propagates to the caller;
the caller's store is unchanged (the surrounding transaction rolls back
without committing). -/
def resolveCategoryHierarchyWithSession (s : Store) (gen now : Nat)
    (categories : List String) (u : Nat) :
    Nat × Except CatConflict (Store × List Nat × Option Nat × List CategoryInfo) :=
  if categories = [] then (gen, .ok (s, [], none, []))
  else
    match insertCategoryHierarchy s gen now categories u with
    | (gen', .error e) => (gen', .error e)
    | (gen', .ok (s', deepest0)) =>
      let (ids, infos) :=
        if deepest0.getD 0 ≠ 0 then buildChainAux s' u categories 0 none none
        else ([], [])
      (gen', .ok (s', ids, ids.getLast?, infos))

/-! ## Link tables and tags -/

/-- Junction-row upsert for `post_categories`, the loop body of
`UploadingAgent._link_post_to_categories` (uploading_agent.py lines
764-773): `INSERT ... ON CONFLICT (post_id, category_id) DO UPDATE SET
updated_at = CURRENT_TIMESTAMP`. -/
def upsertPostCategory (s : Store) (now post_id category_id : Nat) : Store :=
  match s.postCategories.find?
      (fun r => r.post_id = post_id ∧ r.category_id = category_id) with
  | some _ =>
    { s with
      postCategories := s.postCategories.map (fun r =>
        if r.post_id = post_id ∧ r.category_id = category_id then
          { r with updated_at := now }
        else r) }
  | none =>
    { s with
      postCategories := s.postCategories ++
        [{ post_id := post_id, category_id := category_id,
           created_at := now, updated_at := now, deleted := false }] }

/-- `UploadingAgent._link_post_to_categories` (uploading_agent.py lines
744-775): upsert one junction row per category ID; an empty ID list is a
no-op. -/
def linkPostToCategories (s : Store) (now post_id : Nat)
    (category_ids : List Nat) : Store :=
  category_ids.foldl (fun acc cid => upsertPostCategory acc now post_id cid) s

/-- Modelled from the spec: `TagRepository.upsert_and_link_tags` (the
`TagRepository` source is not among the given files), spec sections 3 and
4.3: per tag title, insert into `tags` unless a row with that globally
unique title exists, then upsert the `(post_id, tag_title)` junction row,
whose conflict resolution only refreshes the updated-at marker; returns
the linked titles. -/
def upsertAndLinkTags (s : Store) (gen now post_id : Nat)
    (tags : List String) : Store × Nat × List String :=
  tags.foldl
    (fun (acc : Store × Nat × List String) t =>
      let (s, gen, linked) := acc
      let sg : Store × Nat :=
        match s.tags.find? (fun r => r.title = t ∧ r.deleted = false) with
        | some _ => (s, gen)
        | none =>
          let (tid, gen') := generateId gen
          ({ s with
             tags := s.tags ++
               [{ id := tid, title := t, created_at := now,
                  updated_at := now, deleted := false }] }, gen')
      let (s, gen) := sg
      let s : Store :=
        match s.postTags.find?
            (fun r => r.post_id = post_id ∧ r.tag_title = t) with
        | some _ =>
          { s with
            postTags := s.postTags.map (fun r =>
              if r.post_id = post_id ∧ r.tag_title = t then
                { r with updated_at := now }
              else r) }
        | none =>
          { s with
            postTags := s.postTags ++
              [{ post_id := post_id, tag_title := t, created_at := now,
                 updated_at := now, deleted := false }] }
      (s, gen, linked ++ [t]))
    (s, gen, [])

/-! ## Payload data (the in-flight document)

The agent receives plain dictionaries.  `FileData` models the image /
thumbnail dictionaries (`local_path`, `s3_url`, `s3_key`, ...); a missing
key is `none`.  The code also tolerates a thumbnail given as a bare path
string (`isinstance(thumbnail, dict)` checks); payloads reaching
`_save_article` through `full_upload` always carry dictionary thumbnails,
and only that shape is modelled (`Payload.thumbnail : Option FileData`). -/

/-- An image / thumbnail dictionary of the payload. -/
structure FileData where
  local_path : String := ""
  alt : Option String := none
  s3_url : Option String := none
  s3_key : Option String := none
  original_filename : Option String := none
  stored_name : Option String := none
  is_thumbnail : Option Bool := none
  cdn_url : Option String := none
  deriving Repr, DecidableEq

/-- The document payload handed to `_save_article`.  Optional fields model
dictionary keys the code reads with `data.get(...)`; `user_id` is modelled
as always present (the code substitutes `config.DEFAULT_USER_ID` for a
missing key, and every claim quantifies over the user). -/
structure Payload where
  title : Option String := none
  content : String := ""
  slug : Option String := none
  user_id : Nat := 1
  description : Option String := none
  summary : Option String := none
  status : Option String := none
  categories : List String := []
  tags : List String := []
  images : List FileData := []
  thumbnail : Option FileData := none
  username : Option String := none
  author : Option String := none
  deriving Repr, DecidableEq

/-- Modelled from the spec: the `config` module is not among the given
sources; the CDN base for post assets.  Its concrete value never matters
to a claim. -/
def CDN_ASSET_POSTS : String := "https://cdn.example.com/assets/posts"

/-- Modelled from the spec: `config.BLOG_BASE_URL` (module not among the
given sources). -/
def BLOG_BASE_URL : String := "https://blog.example.com"

/-- Modelled from the spec: `config.DEFAULT_USERNAME` (module not among
the given sources). -/
def DEFAULT_USERNAME : String := "unknown"

/-- Modelled from the spec: `schema.generate_slug_from_title` (the
`schema` module is not among the given sources); derives a URL-friendly
slug from a title (lowercase, spaces to hyphens), per the glossary's
natural-key `(user, slug)` convention. -/
def generateSlugFromTitle (title : String) : String :=
  spacesToHyphens (lowerString title)

/-- Python `a or b` on optional strings (`None` and `""` are falsy). -/
def pyOrStr (a b : Option String) : Option String :=
  match a with
  | some s => if s = "" then b else some s
  | none => b

/-- The slug used for schema validation and the post upsert:
`data.get("slug") or generate_slug_from_title(data.get("title",
"untitled"))`. -/
def slugOf (p : Payload) : String :=
  match p.slug with
  | some s => if s = "" then generateSlugFromTitle (p.title.getD "untitled") else s
  | none => generateSlugFromTitle (p.title.getD "untitled")

/-- The publication username (uploading_agent.py lines 465-469):
`data.get("username")`, else the author name slugified
(`author.lower().replace(" ", "-")`), else `config.DEFAULT_USERNAME`. -/
def usernameOf (p : Payload) : String :=
  let fromAuthor :=
    let author := p.author.getD DEFAULT_USERNAME
    if author = "" then DEFAULT_USERNAME
    else spacesToHyphens (lowerString author)
  match p.username with
  | some un => if un = "" then fromAuthor else un
  | none => fromAuthor

/-- `UploadingAgent._get_content_type` (uploading_agent.py lines
655-665). -/
def getContentType (ext : String) : String :=
  let e := lowerString ext
  if e = "jpg" then "image/jpeg"
  else if e = "jpeg" then "image/jpeg"
  else if e = "png" then "image/png"
  else if e = "gif" then "image/gif"
  else if e = "webp" then "image/webp"
  else if e = "svg" then "image/svg+xml"
  else "application/octet-stream"

/-! ## Content URL replacement (_replace_content_urls)

The regex `!\[([^\]]*)\]\([^)]*FN\)` (FN the escaped original filename)
replaced by `![\1](CDN)` is implemented as a left-to-right scanner over
the character list: a match is `![`, then the alt text up to the first
`]`, then `(`, then a target running to the first `)` that ends with FN.
Scanning continues after each replacement, as `re.sub` does.  The scanner
carries fuel (initially the content length); every step consumes at least
one character, so the fuel never runs out on the initial call. -/

/-- Characters before the first occurrence of `c`, and the rest after it;
`none` if `c` does not occur. -/
def takeUntilChar (c : Char) : List Char → Option (List Char × List Char)
  | [] => none
  | x :: xs =>
    if x = c then some ([], xs)
    else
      match takeUntilChar c xs with
      | some (pre, post) => some (x :: pre, post)
      | none => none

/-- Match the image pattern at the head of `s`; on success, the alt text
and the remainder after the closing parenthesis. -/
def matchImageAt (fn : List Char) (s : List Char) : Option (List Char × List Char) :=
  match s with
  | '!' :: '[' :: s1 =>
    (match takeUntilChar ']' s1 with
     | some (alt, s2) =>
       (match s2 with
        | '(' :: s3 =>
          (match takeUntilChar ')' s3 with
           | some (target, s4) =>
             if fn.isSuffixOf target then some (alt, s4) else none
           | none => none)
        | _ => none)
     | none => none)
  | _ => none

/-- The scanning loop of the substitution. -/
def reSubImageAux (fn cdn : List Char) : Nat → List Char → List Char
  | 0, s => s
  | _, [] => []
  | fuel + 1, c :: rest =>
    match matchImageAt fn (c :: rest) with
    | some (alt, after) =>
      '!' :: '[' :: (alt ++ ']' :: '(' :: cdn ++ ')' :: reSubImageAux fn cdn fuel after)
    | none => c :: reSubImageAux fn cdn fuel rest

/-- `re.sub(r"!\[([^\]]*)\]\([^)]*FN\)", r"![\1](CDN)", content)`. -/
def reSubImage (fn cdn content : String) : String :=
  ⟨reSubImageAux fn.data cdn.data content.data.length content.data⟩

/-- The images loop of `_replace_content_urls` (uploading_agent.py lines
521-548).  An item without a `local_path` or without an `s3_url` hits
`if img not in (thumbnail if isinstance(thumbnail, dict) else [])`: with a
dictionary thumbnail this evaluates `dict.__contains__` on an unhashable
dictionary and raises `TypeError` (aborting the publication before any
database access); without a thumbnail the item is carried over unchanged.
A processed item has the pattern for its original filename replaced in the
content by its `s3_url` and is carried over with `cdn_url` set; the
thumbnail itself is processed first and never added to the returned image
list (`img is not thumbnail`). -/
def replaceImagesLoop (thumbPresent : Bool) :
    List FileData → String → List FileData → Except Unit (String × List FileData)
  | [], content, acc => .ok (content, acc)
  | img :: rest, content, acc =>
    if img.local_path = "" ∨ img.s3_url.getD "" = "" then
      if thumbPresent then .error ()
      else replaceImagesLoop thumbPresent rest content (acc ++ [img])
    else
      let fn := img.original_filename.getD (pathName img.local_path)
      let cdn := img.s3_url.getD ""
      replaceImagesLoop thumbPresent rest (reSubImage fn cdn content)
        (acc ++ [{ img with cdn_url := some cdn }])

/-- `UploadingAgent._replace_content_urls` (uploading_agent.py lines
495-550); see `replaceImagesLoop` for the loop semantics.  The error case
is the `TypeError` described there. -/
def replaceContentUrls (content : String) (images : List FileData)
    (thumbnail : Option FileData) : Except Unit (String × List FileData) :=
  match thumbnail with
  | some t =>
    if t.local_path = "" ∨ t.s3_url.getD "" = "" then .error ()
    else
      let fn := t.original_filename.getD (pathName t.local_path)
      let content1 := reSubImage fn (t.s3_url.getD "") content
      replaceImagesLoop true images content1 []
  | none => replaceImagesLoop false images content []

/-! ## File records (_save_file_records) -/

/-- The stored name a file record is keyed by:
`file_data.get("stored_name", original_filename)` with
`original_filename = file_data.get("original_filename",
Path(local_path).name)`. -/
def storedNameOf (f : FileData) : String :=
  f.stored_name.getD (f.original_filename.getD (pathName f.local_path))

/-- The `original_filename` column value for a file record. -/
def originalFilenameOf (f : FileData) : String :=
  f.original_filename.getD (pathName f.local_path)

/-- The `stored_uri` argument `_save_file_records` passes to the upsert:
the `s3_url` when truthy, else a CDN path built from the stored name. -/
def storedUriArgOf (f : FileData) : String :=
  if f.s3_url.getD "" = "" then
    CDN_ASSET_POSTS ++ "/images/" ++ storedNameOf f
  else f.s3_url.getD ""

/-- The loop of `UploadingAgent._save_file_records` (uploading_agent.py
lines 601-649) over the combined thumbnail-first file list: skip entries
without a `local_path`; upsert a record per entry, appending the returned
ID; an upsert failure is logged and skipped (`try`/`except` around the
single record), leaving the store and the collected IDs as they were.
The local filesystem is modelled as empty: `Path(local_path).exists()` is
false, so `file_size` is always `None` and no local `stat` is taken. -/
def saveFilesLoop (u post_id now : Nat) :
    List FileData → Store → Nat → List Nat → Store × Nat × List Nat
  | [], s, gen, acc => (s, gen, acc)
  | f :: rest, s, gen, acc =>
    if f.local_path = "" then saveFilesLoop u post_id now rest s gen acc
    else
      let ext := extOf f.local_path
      match upsertFileRecord s gen now u post_id (originalFilenameOf f)
          (storedNameOf f) (storedUriArgOf f) f.s3_key
          (some (getContentType ext)) (some ext) none
          (f.is_thumbnail.getD false) with
      | (.ok (s', fid), gen') => saveFilesLoop u post_id now rest s' gen' (acc ++ [fid])
      | (.error _, gen') => saveFilesLoop u post_id now rest s gen' acc

/-- `UploadingAgent._save_file_records` (uploading_agent.py lines
552-653): the thumbnail, when present, is put first with
`is_thumbnail = True`, followed by the images in their supplied order with
`is_thumbnail = False`; returns the store, the generator and the IDs of
the records that were saved. -/
def saveFileRecords (s : Store) (gen now post_id : Nat)
    (images : List FileData) (thumbnail : Option FileData) (u : Nat) :
    Store × Nat × List Nat :=
  let all_files : List FileData :=
    (match thumbnail with
     | some t => [{ t with is_thumbnail := some true }]
     | none => []) ++
    images.map (fun i => { i with is_thumbnail := some false })
  saveFilesLoop u post_id now all_files s gen []

/-! ## The publication transaction (_save_article) -/

/-- How a publication attempt can fail, read off the control flow of
`UploadingAgent._save_article` (the generic handler in
`UploadingAgent.execute` turns an uncaught exception into a failure
result):
`typeError` — the unhashable-dictionary `TypeError` in
`_replace_content_urls`; `validationFailure` — `PostSchema` rejected the
payload; `fatalConflict` — the category hierarchy upsert found a row whose
recorded parent contradicts the path; `dbError` — the post upsert itself
was rejected by the database; `transientStoreFailure` — the final commit
failed; `slugKeyError` — the `KeyError` of `data["slug"]` on line 463,
raised after the commit. -/
inductive SaveErr
  | typeError
  | validationFailure
  | fatalConflict (c : CatConflict)
  | dbError (e : DbErr)
  | transientStoreFailure
  | slugKeyError
  deriving Repr, DecidableEq

/-- The success payload `_save_article` returns (uploading_agent.py lines
478-493).  The `upload_payload` echo built by `_build_upload_payload` is
reporting-only and built from missing-source pydantic models; it is not
modelled (spec section 6 lists the exposed result fields). -/
structure SaveResult where
  article_id : Nat
  title : String
  slug : String
  categories : List String
  category_ids : List Nat
  category_id : Option Nat
  published_url : String
  image_count : Nat
  images : List FileData
  deriving Repr, DecidableEq

/-- Modelled from the spec: `schema.PostSchema` (the `schema` module is
not among the given sources) validates the required post fields; a payload
without a title fails validation (spec section 7, ValidationFailure:
required post fields absent/malformed, e.g. missing title).  The remaining
fields `_save_article` passes are either always present (`user_id`,
`slug`, `level`, `priority`), optional, or normalised before validation
(`status`). -/
def postSchemaOk (p : Payload) : Bool := p.title.isSome

/-- The status-field normalisation of `_save_article` (uploading_agent.py
lines 369-372): `data.get("status", PostStatusEnum.PUBLIC)`, replaced by
`"public"` (with a warning) unless it is one of the three enum values. -/
def statusValueOf (p : Payload) : String :=
  match p.status with
  | some s => if s = "public" ∨ s = "private" ∨ s = "follower" then s else "public"
  | none => "public"

/-- `UploadingAgent._save_article` (uploading_agent.py lines 326-493).
All database work happens on one session: the staged stores `s1 ... s5`
exist only inside the session and become durable exclusively at the single
`session.commit()` at the end (line 460).  Modelled from the spec where
the session factory `get_db_session` (not among the given sources) is
concerned: leaving the session on an exception, or with a failed commit,
rolls every staged write back, so every abort returns the caller's
original store (spec section 4.4, step 4 and section 7).  `commitOk`
injects the spec's TransientStoreFailure at the commit step.  The
returned generator state survives rollbacks, since snowflake IDs are
never reissued. -/
def saveArticle (store : Store) (gen now : Nat) (commitOk : Bool) (p : Payload) :
    Store × Nat × Except SaveErr SaveResult :=
  let step0 : Except Unit (String × List FileData) :=
    if p.images ≠ [] ∨ p.thumbnail.isSome then
      replaceContentUrls p.content p.images p.thumbnail
    else .ok (p.content, p.images)
  match step0 with
  | .error _ => (store, gen, .error .typeError)
  | .ok (content, images) =>
    let status_value := statusValueOf p
    match p.title with
    | none => (store, gen, .error .validationFailure)
    | some title =>
      let u := p.user_id
      let slug := slugOf p
      match resolveCategoryHierarchyWithSession store gen now p.categories u with
      | (gen1, .error c) => (store, gen1, .error (.fatalConflict c))
      | (gen1, .ok (s1, category_ids, deepest, _infos)) =>
        let meta_title := strTake title 70
        let sd := pyOrStr p.summary p.description
        let meta_description :=
          match sd with
          | some d => if d = "" then none else some (strTake d 170)
          | none => none
        let og_image_url :=
          match p.thumbnail with
          | some t => t.s3_url
          | none => none
        let og_image_alt := some (title ++ " thumbnail")
        match upsertPost s1 gen1 now u title slug (some content) sd deepest
            status_value (some meta_title) meta_description og_image_url
            og_image_alt with
        | (.error e, gen2) => (store, gen2, .error (.dbError e))
        | (.ok (s2, article_id), gen2) =>
          let s3 :=
            if category_ids ≠ [] then
              linkPostToCategories s2 now article_id category_ids
            else s2
          let (s4, gen3, _linked) :=
            if p.tags ≠ [] then upsertAndLinkTags s3 gen2 now article_id p.tags
            else (s3, gen2, [])
          let (s5, gen4, _fileIds) :=
            saveFileRecords s4 gen3 now article_id images p.thumbnail u
          if commitOk then
            match p.slug with
            | none => (s5, gen4, .error .slugKeyError)
            | some rawSlug =>
              (s5, gen4, .ok
                { article_id := article_id
                  title := title
                  slug := rawSlug
                  categories := p.categories
                  category_ids := category_ids
                  category_id := deepest
                  published_url :=
                    BLOG_BASE_URL ++ "/blog/@" ++ usernameOf p ++ "/" ++ rawSlug
                  image_count :=
                    images.length + (if p.thumbnail.isSome then 1 else 0)
                  images := images })
          else (store, gen4, .error .transientStoreFailure)

/-- Media shape under which `_replace_content_urls` cannot raise its
`TypeError`: either no (dictionary) thumbnail, or thumbnail and all images
carry a `local_path` and a truthy `s3_url`. -/
def mediaOk (p : Payload) : Prop :=
  ∀ t, p.thumbnail = some t →
    (t.local_path ≠ "" ∧ t.s3_url.getD "" ≠ "") ∧
    ∀ i ∈ p.images, i.local_path ≠ "" ∧ i.s3_url.getD "" ≠ ""

instance (p : Payload) : Decidable (mediaOk p) := by
  unfold mediaOk
  cases h : p.thumbnail with
  | none =>
    exact isTrue (by intro t ht; cases ht)
  | some t0 =>
    refine decidable_of_iff
      ((t0.local_path ≠ "" ∧ t0.s3_url.getD "" ≠ "") ∧
        ∀ i ∈ p.images, i.local_path ≠ "" ∧ i.s3_url.getD "" ≠ "") ⟨?_, ?_⟩
    · intro hc t ht
      injection ht with ht'
      subst ht'
      exact hc
    · intro hall
      exact hall t0 rfl

/-! ## Helper lemmas -/

/-- The conflict-update clause never changes a row's key fields, its
soft-delete marker, or the frame of immutable columns. -/
theorem postConflictUpdate_frame (u : Nat) (slug : String) (now : Nat)
    (title : String) (content description : Option String)
    (category_id : Option Nat) (status : String)
    (mt md ou oa : Option String) (r : PostRow) :
    (postConflictUpdate u slug now title content description category_id
        status mt md ou oa r).id = r.id ∧
    (postConflictUpdate u slug now title content description category_id
        status mt md ou oa r).user_id = r.user_id ∧
    (postConflictUpdate u slug now title content description category_id
        status mt md ou oa r).slug = r.slug ∧
    (postConflictUpdate u slug now title content description category_id
        status mt md ou oa r).group_id = r.group_id ∧
    (postConflictUpdate u slug now title content description category_id
        status mt md ou oa r).level = r.level ∧
    (postConflictUpdate u slug now title content description category_id
        status mt md ou oa r).parent_id = r.parent_id ∧
    (postConflictUpdate u slug now title content description category_id
        status mt md ou oa r).priority = r.priority ∧
    (postConflictUpdate u slug now title content description category_id
        status mt md ou oa r).created_at = r.created_at ∧
    (postConflictUpdate u slug now title content description category_id
        status mt md ou oa r).deleted = r.deleted := by
  unfold postConflictUpdate
  split <;> simp

/-- The posts conflict-update preserves the natural-key predicate for any
key. -/
theorem postKeyMatch_conflictUpdate (u' : Nat) (slug' : String)
    (u : Nat) (slug : String) (now : Nat) (title : String)
    (content description : Option String) (category_id : Option Nat)
    (status : String) (mt md ou oa : Option String) (r : PostRow) :
    postKeyMatch u' slug' (postConflictUpdate u slug now title content
      description category_id status mt md ou oa r) =
      postKeyMatch u' slug' r := by
  unfold postKeyMatch postConflictUpdate
  split <;> simp

/-- The files conflict-update never changes a row's key fields, marker, or
creation time. -/
theorem fileConflictUpdate_frame (u : Nat) (stored_name : String)
    (now post_id : Nat) (original_filename : String)
    (s3_key content_type ext : Option String) (file_size : Option Nat)
    (is_thumbnail : Bool) (r : FileRow) :
    (fileConflictUpdate u stored_name now post_id original_filename s3_key
        content_type ext file_size is_thumbnail r).id = r.id ∧
    (fileConflictUpdate u stored_name now post_id original_filename s3_key
        content_type ext file_size is_thumbnail r).user_id = r.user_id ∧
    (fileConflictUpdate u stored_name now post_id original_filename s3_key
        content_type ext file_size is_thumbnail r).stored_name = r.stored_name ∧
    (fileConflictUpdate u stored_name now post_id original_filename s3_key
        content_type ext file_size is_thumbnail r).created_at = r.created_at ∧
    (fileConflictUpdate u stored_name now post_id original_filename s3_key
        content_type ext file_size is_thumbnail r).deleted = r.deleted := by
  unfold fileConflictUpdate
  split <;> simp

/-- Unfolding of the posts natural-key predicate. -/
@[simp] theorem postKeyMatch_eq_true (u : Nat) (slug : String) (r : PostRow) :
    postKeyMatch u slug r = true ↔
      (r.user_id = u ∧ r.slug = slug ∧ r.deleted = false) := by
  simp [postKeyMatch]

/-- Unfolding of the files natural-key predicate. -/
@[simp] theorem fileKeyMatch_eq_true (u : Nat) (stored_name : String) (r : FileRow) :
    fileKeyMatch u stored_name r = true ↔
      (r.user_id = some u ∧ r.stored_name = stored_name ∧ r.deleted = false) := by
  simp [fileKeyMatch]

/-- A predicate-preserving map leaves `countP` unchanged. -/
theorem countP_map_of_preserve {α : Type} (p : α → Bool) (f : α → α)
    (h : ∀ a, p (f a) = p a) (l : List α) :
    (l.map f).countP p = l.countP p := by
  induction l with
  | nil => simp
  | cons a t ih => simp [List.countP_cons, h a, ih]

/-- A predicate-preserving map commutes with `find?`. -/
theorem find?_map_of_preserve {α : Type} (p : α → Bool) (f : α → α)
    (h : ∀ a, p (f a) = p a) (l : List α) :
    (l.map f).find? p = (l.find? p).map f := by
  induction l with
  | nil => rfl
  | cons a t ih =>
    simp only [List.map_cons, List.find?]
    rw [h a]
    cases p a <;> simp [ih]

/-- Appending one matching element to a list with no match makes `find?`
return it. -/
theorem find?_append_single {α : Type} (p : α → Bool) (l : List α) (x : α)
    (hl : l.find? p = none) (hx : p x = true) :
    (l ++ [x]).find? p = some x := by
  rw [List.find?_append, hl]
  simp [List.find?, hx]

/-- A found element together with a count bound pins the count at one. -/
theorem countP_eq_one_of_find?_le_one {α : Type} (p : α → Bool) (l : List α)
    (a : α) (h : l.find? p = some a) (hle : l.countP p ≤ 1) :
    l.countP p = 1 := by
  have hpos : 0 < l.countP p :=
    List.countP_pos_iff.mpr ⟨a, List.mem_of_find?_eq_some h, List.find?_some h⟩
  omega

/-- Branch equation: a failed column check makes the post upsert fail. -/
theorem upsertPost_error (s : Store) (gen now u : Nat) (title slug : String)
    (content description : Option String) (category_id : Option Nat)
    (status : String) (mt md ou oa : Option String) (e : DbErr)
    (hchk : postRowChecks title slug status mt md oa = some e) :
    upsertPost s gen now u title slug content description category_id status
      mt md ou oa = (.error e, gen + 1) := by
  unfold upsertPost generateId
  rw [hchk]

/-- Branch equation: the post upsert on a natural-key conflict. -/
theorem upsertPost_conflict (s : Store) (gen now u : Nat)
    (title slug : String) (content description : Option String)
    (category_id : Option Nat) (status : String) (mt md ou oa : Option String)
    (r : PostRow)
    (hchk : postRowChecks title slug status mt md oa = none)
    (hfind : s.posts.find? (postKeyMatch u slug) = some r) :
    upsertPost s gen now u title slug content description category_id status
      mt md ou oa =
      (.ok ({ s with posts := s.posts.map (postConflictUpdate u slug now title
                content description category_id status mt md ou oa) }, r.id),
       gen + 1) := by
  unfold upsertPost generateId
  rw [hchk, hfind]

/-- Branch equation: the post upsert without a conflict inserts a fresh
row at the end of the table. -/
theorem upsertPost_insert (s : Store) (gen now u : Nat)
    (title slug : String) (content description : Option String)
    (category_id : Option Nat) (status : String) (mt md ou oa : Option String)
    (hchk : postRowChecks title slug status mt md oa = none)
    (hfind : s.posts.find? (postKeyMatch u slug) = none) :
    upsertPost s gen now u title slug content description category_id status
      mt md ou oa =
      (.ok ({ s with posts := s.posts ++
          [{ id := gen, group_id := some gen, level := 0, parent_id := none,
             priority := 100, slug := slug, title := title, content := content,
             category_id := category_id, user_id := u,
             description := description, meta_title := mt,
             meta_description := md, og_image_url := ou, og_image_alt := oa,
             status := status, created_at := now, updated_at := now,
             deleted := false }] }, gen), gen + 1) := by
  unfold upsertPost generateId
  rw [hchk, hfind]

/-- Branch equation: a failed column check makes the file upsert fail. -/
theorem upsertFileRecord_error (s : Store) (gen now u post_id : Nat)
    (original_filename stored_name stored_uri : String)
    (s3_key content_type ext : Option String) (file_size : Option Nat)
    (is_thumbnail : Bool) (e : DbErr)
    (hchk : fileRowChecks original_filename stored_name s3_key content_type
      ext = some e) :
    upsertFileRecord s gen now u post_id original_filename stored_name
      stored_uri s3_key content_type ext file_size is_thumbnail =
      (.error e, gen + 1) := by
  unfold upsertFileRecord generateId
  rw [hchk]

/-- Branch equation: the file upsert on a natural-key conflict. -/
theorem upsertFileRecord_conflict (s : Store) (gen now u post_id : Nat)
    (original_filename stored_name stored_uri : String)
    (s3_key content_type ext : Option String) (file_size : Option Nat)
    (is_thumbnail : Bool) (r : FileRow)
    (hchk : fileRowChecks original_filename stored_name s3_key content_type
      ext = none)
    (hfind : s.files.find? (fileKeyMatch u stored_name) = some r) :
    upsertFileRecord s gen now u post_id original_filename stored_name
      stored_uri s3_key content_type ext file_size is_thumbnail =
      (.ok ({ s with files := s.files.map (fileConflictUpdate u stored_name
                now post_id original_filename s3_key content_type ext
                file_size is_thumbnail) }, r.id), gen + 1) := by
  unfold upsertFileRecord generateId
  rw [hchk, hfind]

/-- Branch equation: the file upsert without a conflict inserts a fresh
row at the end of the table. -/
theorem upsertFileRecord_insert (s : Store) (gen now u post_id : Nat)
    (original_filename stored_name stored_uri : String)
    (s3_key content_type ext : Option String) (file_size : Option Nat)
    (is_thumbnail : Bool)
    (hchk : fileRowChecks original_filename stored_name s3_key content_type
      ext = none)
    (hfind : s.files.find? (fileKeyMatch u stored_name) = none) :
    upsertFileRecord s gen now u post_id original_filename stored_name
      stored_uri s3_key content_type ext file_size is_thumbnail =
      (.ok ({ s with files := s.files ++
          [{ id := gen, user_id := some u, post_id := some post_id,
             content_type := content_type, ext := ext,
             original_filename := original_filename,
             stored_name := stored_name, s3_key := s3_key,
             stored_uri := s3_key.getD "", file_size := file_size,
             is_thumbnail := is_thumbnail, created_at := now,
             updated_at := now, deleted := false }] }, gen), gen + 1) := by
  unfold upsertFileRecord generateId
  rw [hchk, hfind]

/-- A list is pointwise related to its image under a map whose action is
covered by the relation. -/
theorem forall₂_map_self {α : Type} (R : α → α → Prop) (f : α → α)
    (h : ∀ a, R a (f a)) : ∀ l : List α, List.Forall₂ R l (l.map f)
  | [] => .nil
  | a :: t => .cons (h a) (forall₂_map_self R f h t)

/-- A successful post upsert only changes the posts table. -/
theorem upsertPost_ok_only_posts (s : Store) (gen now u : Nat)
    (title slug : String) (content description : Option String)
    (category_id : Option Nat) (status : String) (mt md ou oa : Option String)
    (s' : Store) (rid g' : Nat)
    (h : upsertPost s gen now u title slug content description category_id
      status mt md ou oa = (.ok (s', rid), g')) :
    ∃ pl, s' = { s with posts := pl } := by
  cases hchk : postRowChecks title slug status mt md oa with
  | some e =>
    rw [upsertPost_error s gen now u title slug content description
      category_id status mt md ou oa e hchk] at h
    simp at h
  | none =>
    cases hfind : s.posts.find? (postKeyMatch u slug) with
    | some r =>
      rw [upsertPost_conflict s gen now u title slug content description
        category_id status mt md ou oa r hchk hfind] at h
      simp only [Prod.mk.injEq, Except.ok.injEq] at h
      exact ⟨_, h.1.1.symm⟩
    | none =>
      rw [upsertPost_insert s gen now u title slug content description
        category_id status mt md ou oa hchk hfind] at h
      simp only [Prod.mk.injEq, Except.ok.injEq] at h
      exact ⟨_, h.1.1.symm⟩

/-- After a successful post upsert, every non-deleted row matching the
natural key carries the status and primary category the call supplied. -/
theorem upsertPost_ok_key_rows (s : Store) (gen now u : Nat)
    (title slug : String) (content description : Option String)
    (category_id : Option Nat) (status : String) (mt md ou oa : Option String)
    (s' : Store) (rid g' : Nat)
    (h : upsertPost s gen now u title slug content description category_id
      status mt md ou oa = (.ok (s', rid), g')) :
    ∀ r ∈ s'.posts, postKeyMatch u slug r = true →
      r.status = status ∧ r.category_id = category_id := by
  cases hchk : postRowChecks title slug status mt md oa with
  | some e =>
    rw [upsertPost_error s gen now u title slug content description
      category_id status mt md ou oa e hchk] at h
    simp at h
  | none =>
    cases hfind : s.posts.find? (postKeyMatch u slug) with
    | some r0 =>
      rw [upsertPost_conflict s gen now u title slug content description
        category_id status mt md ou oa r0 hchk hfind] at h
      simp only [Prod.mk.injEq, Except.ok.injEq] at h
      obtain ⟨⟨hs', -⟩, -⟩ := h
      subst hs'
      intro r hr hkey
      simp only [List.mem_map] at hr
      obtain ⟨a, -, ha⟩ := hr
      subst ha
      rw [postKeyMatch_conflictUpdate] at hkey
      unfold postConflictUpdate
      rw [if_pos hkey]
      exact ⟨rfl, rfl⟩
    | none =>
      rw [upsertPost_insert s gen now u title slug content description
        category_id status mt md ou oa hchk hfind] at h
      simp only [Prod.mk.injEq, Except.ok.injEq] at h
      obtain ⟨⟨hs', -⟩, -⟩ := h
      subst hs'
      intro r hr hkey
      simp only [List.mem_append, List.mem_singleton] at hr
      cases hr with
      | inl hmem =>
        exact absurd hkey (by simpa using List.find?_eq_none.mp hfind r hmem)
      | inr heq =>
        subst heq
        exact ⟨rfl, rfl⟩

/-- The junction-row upsert only changes the `post_categories` table. -/
theorem upsertPostCategory_posts (s : Store) (now a b : Nat) :
    (upsertPostCategory s now a b).posts = s.posts := by
  unfold upsertPostCategory
  split <;> rfl

/-- Linking categories leaves the posts table unchanged. -/
theorem linkPostToCategories_posts (now post_id : Nat) :
    ∀ (ids : List Nat) (s : Store),
      (linkPostToCategories s now post_id ids).posts = s.posts := by
  intro ids
  induction ids with
  | nil => intro s; rfl
  | cons a t ih =>
    intro s
    show (linkPostToCategories (upsertPostCategory s now post_id a) now
      post_id t).posts = s.posts
    rw [ih, upsertPostCategory_posts]

/-- Upserting and linking tags leaves the posts table unchanged. -/
theorem upsertAndLinkTags_posts (now post_id : Nat) :
    ∀ (tags : List String) (s : Store) (gen : Nat) (linked : List String),
      ((tags.foldl
        (fun (acc : Store × Nat × List String) t =>
          let (s, gen, linked) := acc
          let sg : Store × Nat :=
            match s.tags.find? (fun r => r.title = t ∧ r.deleted = false) with
            | some _ => (s, gen)
            | none =>
              let (tid, gen') := generateId gen
              ({ s with
                 tags := s.tags ++
                   [{ id := tid, title := t, created_at := now,
                      updated_at := now, deleted := false }] }, gen')
          let (s, gen) := sg
          let s : Store :=
            match s.postTags.find?
                (fun r => r.post_id = post_id ∧ r.tag_title = t) with
            | some _ =>
              { s with
                postTags := s.postTags.map (fun r =>
                  if r.post_id = post_id ∧ r.tag_title = t then
                    { r with updated_at := now }
                  else r) }
            | none =>
              { s with
                postTags := s.postTags ++
                  [{ post_id := post_id, tag_title := t, created_at := now,
                     updated_at := now, deleted := false }] }
          (s, gen, linked ++ [t])) (s, gen, linked)).1).posts = s.posts := by
  intro tags
  induction tags with
  | nil => intro s gen linked; rfl
  | cons t ts ih =>
    intro s gen linked
    rw [List.foldl_cons]
    cases h1 : s.tags.find? (fun r => r.title = t ∧ r.deleted = false) with
    | some r =>
      simp only [h1]
      cases h2 : s.postTags.find?
          (fun r => r.post_id = post_id ∧ r.tag_title = t) with
      | some q => simp only [h2]; rw [ih]
      | none => simp only [h2]; rw [ih]
    | none =>
      simp only [h1]
      cases h2 : s.postTags.find?
          (fun r => r.post_id = post_id ∧ r.tag_title = t) with
      | some q => simp only [h2]; rw [ih]
      | none => simp only [h2]; rw [ih]

/-- The tag step of `_save_article` leaves the posts table unchanged. -/
theorem upsertAndLinkTags_posts' (s : Store) (gen now post_id : Nat)
    (tags : List String) :
    ((upsertAndLinkTags s gen now post_id tags).1).posts = s.posts :=
  upsertAndLinkTags_posts now post_id tags s gen []

/-- A successful file upsert only changes the files table. -/
theorem upsertFileRecord_ok_only_files (s : Store) (gen now u post_id : Nat)
    (original_filename stored_name stored_uri : String)
    (s3_key content_type ext : Option String) (file_size : Option Nat)
    (is_thumbnail : Bool) (s' : Store) (fid g' : Nat)
    (h : upsertFileRecord s gen now u post_id original_filename stored_name
      stored_uri s3_key content_type ext file_size is_thumbnail =
      (.ok (s', fid), g')) :
    ∃ fl, s' = { s with files := fl } := by
  cases hchk : fileRowChecks original_filename stored_name s3_key
      content_type ext with
  | some e =>
    rw [upsertFileRecord_error s gen now u post_id original_filename
      stored_name stored_uri s3_key content_type ext file_size is_thumbnail
      e hchk] at h
    simp at h
  | none =>
    cases hfind : s.files.find? (fileKeyMatch u stored_name) with
    | some r =>
      rw [upsertFileRecord_conflict s gen now u post_id original_filename
        stored_name stored_uri s3_key content_type ext file_size is_thumbnail
        r hchk hfind] at h
      simp only [Prod.mk.injEq, Except.ok.injEq] at h
      exact ⟨_, h.1.1.symm⟩
    | none =>
      rw [upsertFileRecord_insert s gen now u post_id original_filename
        stored_name stored_uri s3_key content_type ext file_size is_thumbnail
        hchk hfind] at h
      simp only [Prod.mk.injEq, Except.ok.injEq] at h
      exact ⟨_, h.1.1.symm⟩

/-- The file-records loop leaves the posts table unchanged. -/
theorem saveFilesLoop_posts (u post_id now : Nat) :
    ∀ (fs : List FileData) (s : Store) (gen : Nat) (acc : List Nat),
      ((saveFilesLoop u post_id now fs s gen acc).1).posts = s.posts := by
  intro fs
  induction fs with
  | nil => intro s gen acc; rfl
  | cons f t ih =>
    intro s gen acc
    unfold saveFilesLoop
    by_cases hlp : f.local_path = ""
    · rw [if_pos hlp]; exact ih s gen acc
    · rw [if_neg hlp]
      cases hup : upsertFileRecord s gen now u post_id (originalFilenameOf f)
          (storedNameOf f) (storedUriArgOf f) f.s3_key
          (some (getContentType (extOf f.local_path)))
          (some (extOf f.local_path)) none (f.is_thumbnail.getD false) with
      | mk r g' =>
        cases r with
        | ok pair =>
          obtain ⟨s', fid⟩ := pair
          simp only [hup]
          rw [ih]
          obtain ⟨fl, hs'⟩ := upsertFileRecord_ok_only_files s gen now u
            post_id (originalFilenameOf f) (storedNameOf f)
            (storedUriArgOf f) f.s3_key
            (some (getContentType (extOf f.local_path)))
            (some (extOf f.local_path)) none (f.is_thumbnail.getD false)
            s' fid g' hup
          rw [hs']
        | error e => simp only [hup]; exact ih s g' acc

/-- `_save_file_records` leaves the posts table unchanged. -/
theorem saveFileRecords_posts (s : Store) (gen now post_id : Nat)
    (images : List FileData) (thumbnail : Option FileData) (u : Nat) :
    ((saveFileRecords s gen now post_id images thumbnail u).1).posts =
      s.posts := by
  unfold saveFileRecords
  exact saveFilesLoop_posts u post_id now _ s gen []

/-- The resolver's returned deepest ID is always the last element of the
returned chain. -/
theorem resolve_ok_deepest_getLast (s : Store) (gen now : Nat)
    (names : List String) (u gen' : Nat) (s' : Store) (ids : List Nat)
    (deepest : Option Nat) (infos : List CategoryInfo)
    (h : resolveCategoryHierarchyWithSession s gen now names u =
      (gen', .ok (s', ids, deepest, infos))) :
    deepest = ids.getLast? := by
  unfold resolveCategoryHierarchyWithSession at h
  split at h
  · simp only [Prod.mk.injEq, Except.ok.injEq] at h
    obtain ⟨-, -, hids, hdeep, -⟩ := h
    subst hids
    subst hdeep
    rfl
  · split at h
    next gen1 e heq => simp at h
    next gen1 s1 d heq =>
      simp only [Prod.mk.injEq, Except.ok.injEq] at h
      obtain ⟨-, -, hids, hdeep, -⟩ := h
      subst hids
      exact hdeep.symm

/-- Success inversion for `_save_article`: after a successful publication
the final store's rows matching the payload's natural key carry the
normalised status and the reported primary category, and the reported
primary category is the last element of the reported chain. -/
theorem saveArticle_ok_spec (store : Store) (gen now : Nat) (cOk : Bool)
    (p : Payload) (st : Store) (g : Nat) (res : SaveResult)
    (h : saveArticle store gen now cOk p = (st, g, .ok res)) :
    res.category_id = res.category_ids.getLast? ∧
    ∀ r ∈ st.posts, postKeyMatch p.user_id (slugOf p) r = true →
      r.status = statusValueOf p ∧ r.category_id = res.category_id := by
  unfold saveArticle at h
  dsimp only at h
  split at h
  · simp at h
  · split at h
    · simp at h
    · split at h
      · simp at h
      · split at h
        · simp at h
        · split at h
          · split at h
            · simp at h
            · rename_i gen1 s1 ids deepest infos hresolve xU s2V article_id
                gen2 hupsert hcommit xS rawSlug hslug
              simp only [Prod.mk.injEq, Except.ok.injEq] at h
              obtain ⟨hst, hg, hres⟩ := h
              subst hst
              subst hres
              constructor
              · exact resolve_ok_deepest_getLast _ _ _ _ _ _ _ _ _ _ hresolve
              · intro r hr hkey
                rw [saveFileRecords_posts] at hr
                by_cases htags : p.tags = []
                · rw [if_neg (by simp [htags])] at hr
                  dsimp only at hr
                  by_cases hcat : ids = []
                  · rw [if_neg (by simp [hcat])] at hr
                    exact upsertPost_ok_key_rows _ _ _ _ _ _ _ _ _ _ _ _ _ _
                      _ _ _ hupsert r hr hkey
                  · rw [if_pos hcat] at hr
                    rw [linkPostToCategories_posts] at hr
                    exact upsertPost_ok_key_rows _ _ _ _ _ _ _ _ _ _ _ _ _ _
                      _ _ _ hupsert r hr hkey
                · rw [if_pos htags] at hr
                  rw [upsertAndLinkTags_posts'] at hr
                  by_cases hcat : ids = []
                  · rw [if_neg (by simp [hcat])] at hr
                    exact upsertPost_ok_key_rows _ _ _ _ _ _ _ _ _ _ _ _ _ _
                      _ _ _ hupsert r hr hkey
                  · rw [if_pos hcat] at hr
                    rw [linkPostToCategories_posts] at hr
                    exact upsertPost_ok_key_rows _ _ _ _ _ _ _ _ _ _ _ _ _ _
                      _ _ _ hupsert r hr hkey
          · simp at h

/-! ## Claim theorems -/

/-- C1: publishing the same `(user_id, slug)` document twice with
unchanged content through `PostRepository.upsert_post` yields the same
post ID both times, and afterwards the store holds exactly one non-deleted
post row for that key (assuming the store satisfies the spec's uniqueness
invariant — at most one non-deleted row per key — before the calls). -/
theorem upsert_post_twice_same_id_single_row
    (s : Store) (gen now gen2 now2 u : Nat) (title slug : String)
    (content description : Option String) (category_id : Option Nat)
    (status : String) (mt md ou oa : Option String)
    (s1 : Store) (id1 g1 : Nat)
    (hcount : s.posts.countP (postKeyMatch u slug) ≤ 1)
    (h1 : upsertPost s gen now u title slug content description category_id
            status mt md ou oa = (.ok (s1, id1), g1)) :
    ∃ s2 id2 g2,
      upsertPost s1 gen2 now2 u title slug content description category_id
          status mt md ou oa = (.ok (s2, id2), g2) ∧
      id2 = id1 ∧
      s2.posts.countP (postKeyMatch u slug) = 1 := by
  have hpres : ∀ (now' : Nat) r,
      postKeyMatch u slug (postConflictUpdate u slug now' title content
        description category_id status mt md ou oa r) =
        postKeyMatch u slug r :=
    fun now' r => postKeyMatch_conflictUpdate u slug u slug now' title content
      description category_id status mt md ou oa r
  cases hchk : postRowChecks title slug status mt md oa with
  | some e =>
    rw [upsertPost_error s gen now u title slug content description
      category_id status mt md ou oa e hchk] at h1
    simp at h1
  | none =>
    cases hfind : s.posts.find? (postKeyMatch u slug) with
    | none =>
      rw [upsertPost_insert s gen now u title slug content description
        category_id status mt md ou oa hchk hfind] at h1
      simp only [Prod.mk.injEq, Except.ok.injEq] at h1
      obtain ⟨⟨hs1, hid1⟩, -⟩ := h1
      subst hs1
      subst hid1
      have hcount0 : s.posts.countP (postKeyMatch u slug) = 0 :=
        List.countP_eq_zero.mpr (by
          intro a ha
          have := List.find?_eq_none.mp hfind a ha
          simpa using this)
      have hfind2 := find?_append_single (postKeyMatch u slug) s.posts
        { id := gen, group_id := some gen, level := 0, parent_id := none,
          priority := 100, slug := slug, title := title, content := content,
          category_id := category_id, user_id := u, description := description,
          meta_title := mt, meta_description := md, og_image_url := ou,
          og_image_alt := oa, status := status, created_at := now,
          updated_at := now, deleted := false } hfind (by simp)
      refine ⟨_, _, _, upsertPost_conflict _ gen2 now2 u title slug content
        description category_id status mt md ou oa _ hchk hfind2, rfl, ?_⟩
      simp only
      rw [countP_map_of_preserve _ _ (hpres now2)]
      rw [List.countP_append, hcount0]
      simp [postKeyMatch]
    | some r =>
      rw [upsertPost_conflict s gen now u title slug content description
        category_id status mt md ou oa r hchk hfind] at h1
      simp only [Prod.mk.injEq, Except.ok.injEq] at h1
      obtain ⟨⟨hs1, hid1⟩, -⟩ := h1
      subst hs1
      subst hid1
      have hcount1 : s.posts.countP (postKeyMatch u slug) = 1 :=
        countP_eq_one_of_find?_le_one _ _ r hfind hcount
      have hfind2 : (List.map (postConflictUpdate u slug now title content
          description category_id status mt md ou oa) s.posts).find?
          (postKeyMatch u slug) =
          some (postConflictUpdate u slug now title content description
            category_id status mt md ou oa r) := by
        rw [find?_map_of_preserve _ _ (hpres now), hfind]
        rfl
      refine ⟨_, _, _, upsertPost_conflict _ gen2 now2 u title slug content
        description category_id status mt md ou oa _ hchk hfind2,
        (postConflictUpdate_frame u slug now title content description
          category_id status mt md ou oa r).1, ?_⟩
      simp only
      rw [countP_map_of_preserve _ _ (hpres now2),
        countP_map_of_preserve _ _ (hpres now), hcount1]

/-- Witness for C1: a fresh store, user 7, slug "my-post"; the first
upsert inserts with ID 10, the second returns the same ID 10 and the store
holds exactly one non-deleted row for the key. -/
theorem upsert_post_twice_same_id_single_row_witness :
    Store.empty.posts.countP (postKeyMatch 7 "my-post") ≤ 1 ∧
    ∃ s2 id2 g2,
      upsertPost
        { Store.empty with posts :=
            [{ id := 10, group_id := some 10, level := 0, parent_id := none,
               priority := 100, slug := "my-post", title := "T",
               content := some "c", category_id := none, user_id := 7,
               description := none, meta_title := none,
               meta_description := none, og_image_url := none,
               og_image_alt := none, status := "public", created_at := 5,
               updated_at := 5, deleted := false }] }
        20 6 7 "T" "my-post" (some "c") none none "public" none none none
        none = (.ok (s2, id2), g2) ∧
      id2 = 10 ∧
      s2.posts.countP (postKeyMatch 7 "my-post") = 1 :=
  ⟨by decide,
   upsert_post_twice_same_id_single_row Store.empty 10 5 20 6 7 "T" "my-post"
     (some "c") none none "public" none none none none _ 10 11 (by decide)
     (by rfl)⟩

/-- C3: evaluating `FileRepository.upsert_file_record` at a concrete call
whose `stored_uri` argument is the durable CDN URL and whose `s3_key` is
the object-storage key, the persisted row's `stored_uri` column holds the
object-storage key, not the caller-supplied `stored_uri` argument — the
parameter binding at file.py lines 206-207 routes `s3_key` into the
`stored_uri` placeholder. -/
theorem upsert_file_record_stored_uri_gets_s3_key :
    (upsertFileRecord Store.empty 1 5 7 9 "a.png" "slug.png"
        "https://cdn.example.com/7/slug.png" (some "7/tech/slug/slug.png")
        (some "image/png") (some "png") none true).1.toOption.map
      (fun x => x.1.files.map (fun r => r.stored_uri)) =
      some ["7/tech/slug/slug.png"] ∧
    "7/tech/slug/slug.png" ≠ "https://cdn.example.com/7/slug.png" := by
  constructor
  · rfl
  · decide

/-- C9: on a natural-key conflict, the conflict-update clauses of both
`upsert_post` and `upsert_file_record` return the existing row's ID and
change none of: the row identifier, the natural-key fields
(`(user_id, slug)` for posts, `(user_id, stored_name)` for files), nor the
columns outside the declared mutable set (`group_id`, `level`,
`parent_id`, `priority`, `created_at` and the soft-delete marker for
posts; `created_at` and the marker for files) — on any row of the
table. -/
theorem upsert_conflict_preserves_id_and_natural_key :
    (∀ (s : Store) (gen now u : Nat) (title slug : String)
       (content description : Option String) (category_id : Option Nat)
       (status : String) (mt md ou oa : Option String) (r : PostRow)
       (s' : Store) (rid g' : Nat),
       s.posts.find? (postKeyMatch u slug) = some r →
       upsertPost s gen now u title slug content description category_id
         status mt md ou oa = (.ok (s', rid), g') →
       rid = r.id ∧
       List.Forall₂ (fun old new : PostRow =>
         new.id = old.id ∧ new.user_id = old.user_id ∧ new.slug = old.slug ∧
         new.group_id = old.group_id ∧ new.level = old.level ∧
         new.parent_id = old.parent_id ∧ new.priority = old.priority ∧
         new.created_at = old.created_at ∧ new.deleted = old.deleted)
         s.posts s'.posts) ∧
    (∀ (s : Store) (gen now u post_id : Nat)
       (original_filename stored_name stored_uri : String)
       (s3_key content_type ext : Option String) (file_size : Option Nat)
       (is_thumbnail : Bool) (r : FileRow) (s' : Store) (rid g' : Nat),
       s.files.find? (fileKeyMatch u stored_name) = some r →
       upsertFileRecord s gen now u post_id original_filename stored_name
         stored_uri s3_key content_type ext file_size is_thumbnail =
         (.ok (s', rid), g') →
       rid = r.id ∧
       List.Forall₂ (fun old new : FileRow =>
         new.id = old.id ∧ new.user_id = old.user_id ∧
         new.stored_name = old.stored_name ∧
         new.created_at = old.created_at ∧ new.deleted = old.deleted)
         s.files s'.files) := by
  constructor
  · intro s gen now u title slug content description category_id status mt md
      ou oa r s' rid g' hfind h
    cases hchk : postRowChecks title slug status mt md oa with
    | some e =>
      rw [upsertPost_error s gen now u title slug content description
        category_id status mt md ou oa e hchk] at h
      simp at h
    | none =>
      rw [upsertPost_conflict s gen now u title slug content description
        category_id status mt md ou oa r hchk hfind] at h
      simp only [Prod.mk.injEq, Except.ok.injEq] at h
      obtain ⟨⟨hs', hrid⟩, -⟩ := h
      subst hs'
      subst hrid
      refine ⟨rfl, ?_⟩
      simp only
      exact forall₂_map_self _ _
        (fun a => by
          have hf := postConflictUpdate_frame u slug now title content
            description category_id status mt md ou oa a
          exact ⟨hf.1, hf.2.1, hf.2.2.1, hf.2.2.2.1, hf.2.2.2.2.1,
            hf.2.2.2.2.2.1, hf.2.2.2.2.2.2.1, hf.2.2.2.2.2.2.2.1,
            hf.2.2.2.2.2.2.2.2⟩) s.posts
  · intro s gen now u post_id original_filename stored_name stored_uri s3_key
      content_type ext file_size is_thumbnail r s' rid g' hfind h
    cases hchk : fileRowChecks original_filename stored_name s3_key
        content_type ext with
    | some e =>
      rw [upsertFileRecord_error s gen now u post_id original_filename
        stored_name stored_uri s3_key content_type ext file_size is_thumbnail
        e hchk] at h
      simp at h
    | none =>
      rw [upsertFileRecord_conflict s gen now u post_id original_filename
        stored_name stored_uri s3_key content_type ext file_size is_thumbnail
        r hchk hfind] at h
      simp only [Prod.mk.injEq, Except.ok.injEq] at h
      obtain ⟨⟨hs', hrid⟩, -⟩ := h
      subst hs'
      subst hrid
      refine ⟨rfl, ?_⟩
      simp only
      exact forall₂_map_self _ _
        (fun a => by
          have hf := fileConflictUpdate_frame u stored_name now post_id
            original_filename s3_key content_type ext file_size is_thumbnail a
          exact ⟨hf.1, hf.2.1, hf.2.2.1, hf.2.2.2.1, hf.2.2.2.2⟩) s.files

/-- Witness for C9: a store holding one post row (ID 10, user 7, slug
"my-post") and one file row (ID 40, user 7, stored name "slug.png"); a
conflicting post upsert and a conflicting file upsert return the existing
IDs and preserve identifier, natural key and immutable columns on every
row. -/
theorem upsert_conflict_preserves_id_and_natural_key_witness :
    (10 = 10 ∧
     List.Forall₂ (fun old new : PostRow =>
       new.id = old.id ∧ new.user_id = old.user_id ∧ new.slug = old.slug ∧
       new.group_id = old.group_id ∧ new.level = old.level ∧
       new.parent_id = old.parent_id ∧ new.priority = old.priority ∧
       new.created_at = old.created_at ∧ new.deleted = old.deleted)
       [{ id := 10, group_id := some 10, level := 0, parent_id := none,
          priority := 100, slug := "my-post", title := "T",
          content := some "c", category_id := none, user_id := 7,
          description := none, meta_title := none, meta_description := none,
          og_image_url := none, og_image_alt := none, status := "public",
          created_at := 5, updated_at := 5, deleted := false }]
       (List.map (postConflictUpdate 7 "my-post" 9 "T2" (some "c2") none
          (some 3) "private" none none none none)
         [{ id := 10, group_id := some 10, level := 0, parent_id := none,
            priority := 100, slug := "my-post", title := "T",
            content := some "c", category_id := none, user_id := 7,
            description := none, meta_title := none, meta_description := none,
            og_image_url := none, og_image_alt := none, status := "public",
            created_at := 5, updated_at := 5, deleted := false }])) ∧
    (40 = 40 ∧
     List.Forall₂ (fun old new : FileRow =>
       new.id = old.id ∧ new.user_id = old.user_id ∧
       new.stored_name = old.stored_name ∧
       new.created_at = old.created_at ∧ new.deleted = old.deleted)
       [{ id := 40, user_id := some 7, post_id := some 10,
          content_type := some "image/png", ext := some "png",
          original_filename := "a.png", stored_name := "slug.png",
          s3_key := some "7/k/slug.png", stored_uri := "7/k/slug.png",
          file_size := none, is_thumbnail := true, created_at := 5,
          updated_at := 5, deleted := false }]
       (List.map (fileConflictUpdate 7 "slug.png" 9 11 "b.png"
          (some "7/k2/slug.png") (some "image/png") (some "png") none false)
         [{ id := 40, user_id := some 7, post_id := some 10,
            content_type := some "image/png", ext := some "png",
            original_filename := "a.png", stored_name := "slug.png",
            s3_key := some "7/k/slug.png", stored_uri := "7/k/slug.png",
            file_size := none, is_thumbnail := true, created_at := 5,
            updated_at := 5, deleted := false }])) := by
  constructor
  · exact upsert_conflict_preserves_id_and_natural_key.1
      { Store.empty with posts :=
          [{ id := 10, group_id := some 10, level := 0, parent_id := none,
             priority := 100, slug := "my-post", title := "T",
             content := some "c", category_id := none, user_id := 7,
             description := none, meta_title := none, meta_description := none,
             og_image_url := none, og_image_alt := none, status := "public",
             created_at := 5, updated_at := 5, deleted := false }] }
      20 9 7 "T2" "my-post" (some "c2") none (some 3) "private" none none
      none none _ _ 10 21 (by rfl) (by rfl)
  · exact upsert_conflict_preserves_id_and_natural_key.2
      { Store.empty with files :=
          [{ id := 40, user_id := some 7, post_id := some 10,
             content_type := some "image/png", ext := some "png",
             original_filename := "a.png", stored_name := "slug.png",
             s3_key := some "7/k/slug.png", stored_uri := "7/k/slug.png",
             file_size := none, is_thumbnail := true, created_at := 5,
             updated_at := 5, deleted := false }] }
      50 9 7 11 "b.png" "slug.png" "https://cdn.example.com/slug.png"
      (some "7/k2/slug.png") (some "image/png") (some "png") none false
      _ _ 40 51 (by rfl) (by rfl)

/-- C2: every database write of a publication happens on the single
session of `_save_article`, whose one `session.commit()` closes the scope;
when the publication fails before or at that commit (any failure except
the post-commit `data["slug"]` `KeyError`), the durable store is exactly
the store from before the publication — zero new rows in any touched
table. -/
theorem save_article_failure_leaves_store_unchanged
    (store : Store) (gen now : Nat) (cOk : Bool) (p : Payload)
    (st : Store) (g : Nat) (e : SaveErr)
    (h : saveArticle store gen now cOk p = (st, g, .error e))
    (hne : e ≠ SaveErr.slugKeyError) :
    st = store := by
  unfold saveArticle at h
  dsimp only at h
  split at h
  · simp only [Prod.mk.injEq] at h
    exact h.1.symm
  · split at h
    · simp only [Prod.mk.injEq] at h
      exact h.1.symm
    · split at h
      · simp only [Prod.mk.injEq] at h
        exact h.1.symm
      · split at h
        · simp only [Prod.mk.injEq] at h
          exact h.1.symm
        · split at h
          · split at h
            · simp only [Prod.mk.injEq, Except.error.injEq] at h
              exact absurd h.2.2.symm hne
            · simp at h
          · simp only [Prod.mk.injEq] at h
            exact h.1.symm

/-- Witness for C2: a publication with categories, a tag and a thumbnail
whose commit fails (injected TransientStoreFailure) stages five kinds of
writes and leaves the empty store exactly empty. -/
theorem save_article_failure_leaves_store_unchanged_witness :
    saveArticle Store.empty 100 5 false
      { title := some "T", slug := some "t", user_id := 7,
        categories := ["tech", "ai"], tags := ["ml"],
        thumbnail := some { local_path := "imgs/a.png",
                            s3_url := some "https://cdn.example.com/7/t.png",
                            s3_key := some "7/tech/ai/t/t.png",
                            stored_name := some "t.png" } } =
      (Store.empty, 105, .error .transientStoreFailure) ∧
    Store.empty = Store.empty :=
  ⟨by rfl,
   save_article_failure_leaves_store_unchanged Store.empty 100 5 false
     { title := some "T", slug := some "t", user_id := 7,
       categories := ["tech", "ai"], tags := ["ml"],
       thumbnail := some { local_path := "imgs/a.png",
                           s3_url := some "https://cdn.example.com/7/t.png",
                           s3_key := some "7/tech/ai/t/t.png",
                           stored_name := some "t.png" } }
     Store.empty 105 .transientStoreFailure (by rfl) (by decide)⟩

/-- Branch equation for `_replace_content_urls` with a thumbnail. -/
theorem replaceContentUrls_some (content : String) (images : List FileData)
    (t : FileData) :
    replaceContentUrls content images (some t) =
      if t.local_path = "" ∨ t.s3_url.getD "" = "" then .error ()
      else
        replaceImagesLoop true images
          (reSubImage (t.original_filename.getD (pathName t.local_path))
            (t.s3_url.getD "") content) [] := rfl

/-- Branch equation for `_replace_content_urls` without a thumbnail. -/
theorem replaceContentUrls_none (content : String) (images : List FileData) :
    replaceContentUrls content images none =
      replaceImagesLoop false images content [] := rfl

/-- Under `mediaOk`, step 0 of `_save_article` cannot raise. -/
theorem step0_ok_of_mediaOk (p : Payload) (hm : mediaOk p) :
    ∃ ci, (if p.images ≠ [] ∨ p.thumbnail.isSome then
       replaceContentUrls p.content p.images p.thumbnail
     else .ok (p.content, p.images)) = .ok ci := by
  have hloop : ∀ (tp : Bool) (imgs : List FileData) (content : String)
      (acc : List FileData),
      (tp = true → ∀ i ∈ imgs, i.local_path ≠ "" ∧ i.s3_url.getD "" ≠ "") →
      ∃ v, replaceImagesLoop tp imgs content acc = .ok v := by
    intro tp imgs
    induction imgs with
    | nil => intro content acc hgood; exact ⟨_, rfl⟩
    | cons i t ih =>
      intro content acc hgood
      unfold replaceImagesLoop
      by_cases hbad : i.local_path = "" ∨ i.s3_url.getD "" = ""
      · rw [if_pos hbad]
        cases tp with
        | true =>
          exact absurd hbad (by
            have := hgood rfl i (by simp)
            push_neg
            exact this)
        | false =>
          rw [if_neg (by simp)]
          exact ih content (acc ++ [i]) (by simp)
      · rw [if_neg hbad]
        exact ih _ _ (fun htp j hj => hgood htp j (by simp [hj]))
  by_cases hif : p.images ≠ [] ∨ p.thumbnail.isSome
  · rw [if_pos hif]
    cases hth : p.thumbnail with
    | none =>
      rw [replaceContentUrls_none]
      exact hloop false p.images p.content [] (by simp)
    | some t =>
      obtain ⟨⟨h1, h2⟩, h3⟩ := hm t hth
      rw [replaceContentUrls_some]
      rw [if_neg (by push_neg; exact ⟨h1, h2⟩)]
      exact hloop true p.images _ [] (fun _ => h3)
  · rw [if_neg hif]
    exact ⟨_, rfl⟩

/-- C8: a payload that fails `PostSchema` validation (a missing title)
makes `_save_article` return a structured validation failure before the
database session is even opened: the store is unchanged and no row
anywhere is inserted or updated.  (`mediaOk` excludes the independent
`TypeError` that step 0 raises on malformed media dictionaries before
validation runs.) -/
theorem validation_failure_aborts_before_any_write
    (store : Store) (gen now : Nat) (cOk : Bool) (p : Payload)
    (hval : postSchemaOk p = false) (hm : mediaOk p) :
    saveArticle store gen now cOk p = (store, gen, .error .validationFailure) := by
  have htitle : p.title = none := by
    unfold postSchemaOk at hval
    cases h : p.title with
    | none => rfl
    | some t => rw [h] at hval; simp at hval
  obtain ⟨⟨c, i⟩, hv⟩ := step0_ok_of_mediaOk p hm
  unfold saveArticle
  rw [hv, htitle]

/-- Witness for C8: a payload with no title and a well-formed (empty)
media set aborts with a validation failure and the empty store stays
empty. -/
theorem validation_failure_aborts_before_any_write_witness :
    saveArticle Store.empty 100 5 true
      { title := none, content := "body", slug := some "s", user_id := 7 } =
      (Store.empty, 100, .error .validationFailure) :=
  validation_failure_aborts_before_any_write Store.empty 100 5 true
    { title := none, content := "body", slug := some "s", user_id := 7 }
    (by decide) (by decide)

/-- C10: a present but invalid status value does not abort the
publication: `_save_article` behaves exactly as if the status were
`"public"` (the value is silently replaced, with only a warning logged),
and on success every non-deleted post row matching the payload's natural
key is persisted with status `"public"`. -/
theorem invalid_status_replaced_with_public
    (store : Store) (gen now : Nat) (cOk : Bool) (p : Payload) (stv : String)
    (hst : p.status = some stv)
    (hinv : stv ≠ "public" ∧ stv ≠ "private" ∧ stv ≠ "follower") :
    saveArticle store gen now cOk p =
      saveArticle store gen now cOk { p with status := some "public" } ∧
    ∀ st g res, saveArticle store gen now cOk p = (st, g, .ok res) →
      ∀ r ∈ st.posts, postKeyMatch p.user_id (slugOf p) r = true →
        r.status = "public" := by
  have h1 : statusValueOf p = "public" := by
    unfold statusValueOf
    split
    next s hs =>
      rw [hst] at hs
      injection hs with hs'
      subst hs'
      rw [if_neg (by push_neg; exact ⟨hinv.1, hinv.2.1, hinv.2.2⟩)]
    next hs =>
      rw [hst] at hs
  constructor
  · have h2 : statusValueOf { p with status := some "public" } = "public" := rfl
    unfold saveArticle
    rw [h1, h2]
    rfl
  · intro st g res hok r hr hkey
    have hspec := (saveArticle_ok_spec store gen now cOk p st g res hok).2
      r hr hkey
    rw [h1] at hspec
    exact hspec.1

/-- Witness for C10: status `"banana"` publishes identically to status
`"public"`, and the persisted row carries status `"public"`. -/
theorem invalid_status_replaced_with_public_witness :
    (saveArticle Store.empty 100 5 true
        { title := some "T", slug := some "t", user_id := 7,
          status := some "banana" } =
      saveArticle Store.empty 100 5 true
        { title := some "T", slug := some "t", user_id := 7,
          status := some "public" }) ∧
    ∀ st g res,
      saveArticle Store.empty 100 5 true
        { title := some "T", slug := some "t", user_id := 7,
          status := some "banana" } = (st, g, .ok res) →
      ∀ r ∈ st.posts,
        postKeyMatch 7
          (slugOf { title := some "T", slug := some "t", user_id := 7,
                    status := some "banana" }) r = true →
        r.status = "public" :=
  invalid_status_replaced_with_public Store.empty 100 5 true
    { title := some "T", slug := some "t", user_id := 7,
      status := some "banana" } "banana" (by rfl) (by decide)

/-! ## Category resolver lemmas -/

/-- Branch equation: the hierarchy upsert on an empty remaining path. -/
theorem insertAux_nil (u now : Nat) (s : Store) (gen : Nat)
    (parent group : Option Nat) (level : Nat) :
    insertCategoryHierarchyAux u now [] s gen parent group level =
      (gen, .ok (s, parent)) := rfl

/-- Branch equation: an existing row whose recorded parent agrees with the
path is reused. -/
theorem insertAux_cons_found_ok (u now : Nat) (name : String)
    (rest : List String) (s : Store) (gen : Nat) (parent group : Option Nat)
    (level : Nat) (c : CategoryRow)
    (hfind : getByTitle s name u = some c) (hpar : c.parent_id = parent) :
    insertCategoryHierarchyAux u now (name :: rest) s gen parent group level =
      insertCategoryHierarchyAux u now rest s gen (some c.id)
        (if level = 0 then some c.id else group) (level + 1) := by
  simp only [insertCategoryHierarchyAux, hfind]
  rw [if_pos hpar]

/-- Branch equation: an existing row whose recorded parent contradicts the
path surfaces a FatalConflict. -/
theorem insertAux_cons_found_conflict (u now : Nat) (name : String)
    (rest : List String) (s : Store) (gen : Nat) (parent group : Option Nat)
    (level : Nat) (c : CategoryRow)
    (hfind : getByTitle s name u = some c) (hpar : ¬ c.parent_id = parent) :
    insertCategoryHierarchyAux u now (name :: rest) s gen parent group level =
      (gen, .error ⟨name, c.parent_id, parent⟩) := by
  simp only [insertCategoryHierarchyAux, hfind]
  rw [if_neg hpar]

/-- Branch equation: a missing row is created with a fresh ID at its path
position. -/
theorem insertAux_cons_new (u now : Nat) (name : String)
    (rest : List String) (s : Store) (gen : Nat) (parent group : Option Nat)
    (level : Nat) (hfind : getByTitle s name u = none) :
    insertCategoryHierarchyAux u now (name :: rest) s gen parent group level =
      insertCategoryHierarchyAux u now rest
        { s with categories := s.categories ++
            [{ id := gen, group_id := if level = 0 then some gen else group,
               level := level, priority := 100, parent_id := parent,
               user_id := u, title := name, created_at := now,
               updated_at := now, deleted := false }] }
        (gen + 1) (some gen) (if level = 0 then some gen else group)
        (level + 1) := by
  simp only [insertCategoryHierarchyAux, generateId, hfind]

/-- Appending rows does not change an already-found title lookup. -/
theorem getByTitle_append (s : Store) (extra : List CategoryRow)
    (n : String) (u : Nat) (c : CategoryRow)
    (h : getByTitle s n u = some c) :
    getByTitle { s with categories := s.categories ++ extra } n u = some c := by
  unfold getByTitle at h ⊢
  simp only
  rw [List.find?_append, h]
  rfl

/-- A successful hierarchy upsert only appends category rows, and
afterwards every path title resolves by lookup. -/
theorem insertAux_ok_spec (u now : Nat) :
    ∀ (names : List String) (s : Store) (gen : Nat)
      (parent group : Option Nat) (level : Nat) (g' : Nat) (s' : Store)
      (d : Option Nat),
      insertCategoryHierarchyAux u now names s gen parent group level =
        (g', .ok (s', d)) →
      (∃ extra, s' = { s with categories := s.categories ++ extra }) ∧
      ∀ n ∈ names, (getByTitle s' n u).isSome := by
  intro names
  induction names with
  | nil =>
    intro s gen parent group level g' s' d h
    rw [insertAux_nil] at h
    simp only [Prod.mk.injEq, Except.ok.injEq] at h
    obtain ⟨-, hs, -⟩ := h
    subst hs
    exact ⟨⟨[], by simp⟩, by simp⟩
  | cons name rest ih =>
    intro s gen parent group level g' s' d h
    cases hfind : getByTitle s name u with
    | some c =>
      by_cases hpar : c.parent_id = parent
      · rw [insertAux_cons_found_ok u now name rest s gen parent group level c
          hfind hpar] at h
        obtain ⟨⟨extra, hs⟩, hpres⟩ := ih s gen (some c.id)
          (if level = 0 then some c.id else group) (level + 1) g' s' d h
        refine ⟨⟨extra, hs⟩, ?_⟩
        intro n hn
        rcases List.mem_cons.mp hn with hn | hn
        · subst hn
          rw [hs]
          rw [getByTitle_append s extra n u c hfind]
          rfl
        · exact hpres n hn
      · rw [insertAux_cons_found_conflict u now name rest s gen parent group
          level c hfind hpar] at h
        simp at h
    | none =>
      rw [insertAux_cons_new u now name rest s gen parent group level
        hfind] at h
      obtain ⟨⟨extra1, hs⟩, hpres⟩ := ih _ (gen + 1) (some gen)
        (if level = 0 then some gen else group) (level + 1) g' s' d h
      have hrowfind : getByTitle
          { s with categories := s.categories ++
              [{ id := gen, group_id := if level = 0 then some gen else group,
                 level := level, priority := 100, parent_id := parent,
                 user_id := u, title := name, created_at := now,
                 updated_at := now, deleted := false }] } name u =
          some { id := gen, group_id := if level = 0 then some gen else group,
                 level := level, priority := 100, parent_id := parent,
                 user_id := u, title := name, created_at := now,
                 updated_at := now, deleted := false } := by
        unfold getByTitle at hfind ⊢
        simp only
        exact find?_append_single _ _ _ hfind (by simp)
      refine ⟨?_, ?_⟩
      · refine ⟨({ id := gen,
                   group_id := if level = 0 then some gen else group,
                   level := level, priority := 100, parent_id := parent,
                   user_id := u, title := name, created_at := now,
                   updated_at := now, deleted := false } : CategoryRow) ::
          extra1, ?_⟩
        rw [hs]
        simp
      · intro n hn
        rcases List.mem_cons.mp hn with hn | hn
        · subst hn
          rw [hs]
          rw [getByTitle_append _ extra1 n u _ hrowfind]
          rfl
        · exact hpres n hn

/-- Starting from a known parent, the hierarchy upsert always reports a
deepest ID. -/
theorem insertAux_ok_deepest_isSome (u now : Nat) :
    ∀ (names : List String) (s : Store) (gen p0 : Nat)
      (group : Option Nat) (level : Nat) (g' : Nat) (s' : Store)
      (d : Option Nat),
      insertCategoryHierarchyAux u now names s gen (some p0) group level =
        (g', .ok (s', d)) →
      d.isSome := by
  intro names
  induction names with
  | nil =>
    intro s gen p0 group level g' s' d h
    rw [insertAux_nil] at h
    simp only [Prod.mk.injEq, Except.ok.injEq] at h
    obtain ⟨-, -, hd⟩ := h
    subst hd
    rfl
  | cons name rest ih =>
    intro s gen p0 group level g' s' d h
    cases hfind : getByTitle s name u with
    | some c =>
      by_cases hpar : c.parent_id = some p0
      · rw [insertAux_cons_found_ok u now name rest s gen (some p0) group
          level c hfind hpar] at h
        exact ih s gen c.id _ (level + 1) g' s' d h
      · rw [insertAux_cons_found_conflict u now name rest s gen (some p0)
          group level c hfind hpar] at h
        simp at h
    | none =>
      rw [insertAux_cons_new u now name rest s gen (some p0) group level
        hfind] at h
      exact ih _ (gen + 1) gen _ (level + 1) g' s' d h

/-- With nonzero row IDs and a generator at one or above, the reported
deepest ID is never zero. -/
theorem insertAux_ok_deepest_ne_zero (u now : Nat) :
    ∀ (names : List String) (s : Store) (gen : Nat)
      (parent group : Option Nat) (level : Nat) (g' : Nat) (s' : Store)
      (d : Option Nat),
      (∀ c ∈ s.categories, c.id ≠ 0) → 1 ≤ gen →
      (∀ x, parent = some x → x ≠ 0) →
      insertCategoryHierarchyAux u now names s gen parent group level =
        (g', .ok (s', d)) →
      ∀ x, d = some x → x ≠ 0 := by
  intro names
  induction names with
  | nil =>
    intro s gen parent group level g' s' d hz hg hp h
    rw [insertAux_nil] at h
    simp only [Prod.mk.injEq, Except.ok.injEq] at h
    obtain ⟨-, -, hd⟩ := h
    subst hd
    exact hp
  | cons name rest ih =>
    intro s gen parent group level g' s' d hz hg hp h
    cases hfind : getByTitle s name u with
    | some c =>
      by_cases hpar : c.parent_id = parent
      · rw [insertAux_cons_found_ok u now name rest s gen parent group level c
          hfind hpar] at h
        refine ih s gen (some c.id) _ (level + 1) g' s' d hz hg ?_ h
        intro x hx
        injection hx with hx'
        subst hx'
        refine hz c ?_
        unfold getByTitle at hfind
        exact List.mem_of_find?_eq_some hfind
      · rw [insertAux_cons_found_conflict u now name rest s gen parent group
          level c hfind hpar] at h
        simp at h
    | none =>
      rw [insertAux_cons_new u now name rest s gen parent group level
        hfind] at h
      refine ih _ (gen + 1) (some gen) _ (level + 1) g' s' d ?_ (by omega)
        ?_ h
      · intro c hc
        simp only [List.mem_append, List.mem_singleton] at hc
        rcases hc with hc | hc
        · exact hz c hc
        · subst hc
          simp only
          omega
      · intro x hx
        injection hx with hx'
        subst hx'
        omega

/-- Branch equation: the chain re-derivation loop on a found title. -/
theorem buildChainAux_cons_found (s : Store) (u : Nat) (name : String)
    (rest : List String) (level : Nat) (parent group : Option Nat)
    (c : CategoryRow) (hc : getByTitle s name u = some c) :
    (buildChainAux s u (name :: rest) level parent group).1 =
      c.id :: (buildChainAux s u rest (level + 1) (some c.id)
        (if level = 0 then some c.id else group)).1 := by
  simp only [buildChainAux, hc]

/-- When every title of the path resolves, the re-derived chain pairs the
path names with the IDs of their rows, in order. -/
theorem buildChainAux_forall₂ (s : Store) (u : Nat) :
    ∀ (names : List String) (level : Nat) (parent group : Option Nat),
      (∀ n ∈ names, (getByTitle s n u).isSome) →
      List.Forall₂ (fun n cid => ∃ c, getByTitle s n u = some c ∧ c.id = cid)
        names (buildChainAux s u names level parent group).1 := by
  intro names
  induction names with
  | nil => intro level parent group hpres; exact .nil
  | cons name rest ih =>
    intro level parent group hpres
    have hname := hpres name (by simp)
    rw [Option.isSome_iff_exists] at hname
    obtain ⟨c, hc⟩ := hname
    rw [buildChainAux_cons_found s u name rest level parent group c hc]
    exact .cons ⟨c, hc, rfl⟩ (ih (level + 1) (some c.id) _
      (fun n hn => hpres n (by simp [hn])))

/-- For a non-empty path resolved successfully, the chain pairs the path
names in order with the IDs of their rows in the resulting store, and the
deepest ID is the last chain element. -/
theorem resolve_nonempty_chain_spec (s : Store) (gen now u : Nat)
    (names : List String) (gen' : Nat) (s' : Store) (ids : List Nat)
    (deepest : Option Nat) (infos : List CategoryInfo)
    (hnames : names ≠ [])
    (hz : ∀ c ∈ s.categories, c.id ≠ 0) (hg : 1 ≤ gen)
    (hres : resolveCategoryHierarchyWithSession s gen now names u =
      (gen', .ok (s', ids, deepest, infos))) :
    List.Forall₂ (fun n cid => ∃ c, getByTitle s' n u = some c ∧ c.id = cid)
      names ids ∧
    deepest = ids.getLast? := by
  refine ⟨?_, resolve_ok_deepest_getLast s gen now names u gen' s' ids deepest
    infos hres⟩
  unfold resolveCategoryHierarchyWithSession at hres
  split at hres
  · exact absurd (by assumption) hnames
  · split at hres
    next g1 e heq => simp at hres
    next g1 s1 d0 heq =>
      simp only [Prod.mk.injEq, Except.ok.injEq] at hres
      obtain ⟨hg1, hs1, hids, hdeep, hinfos⟩ := hres
      subst hs1
      unfold insertCategoryHierarchy at heq
      obtain ⟨⟨extra, hext⟩, hpres⟩ :=
        insertAux_ok_spec u now names s gen none none 0 g1 s1 d0 heq
      cases names with
      | nil => exact absurd rfl hnames
      | cons n rest =>
        have hsome : d0.isSome := by
          cases hfind : getByTitle s n u with
          | some c =>
            by_cases hpar : c.parent_id = none
            · rw [insertAux_cons_found_ok u now n rest s gen none none 0 c
                hfind hpar] at heq
              exact insertAux_ok_deepest_isSome u now rest s gen c.id _ 1
                g1 s1 d0 heq
            · rw [insertAux_cons_found_conflict u now n rest s gen none none
                0 c hfind hpar] at heq
              simp at heq
          | none =>
            rw [insertAux_cons_new u now n rest s gen none none 0 hfind] at heq
            exact insertAux_ok_deepest_isSome u now rest _ (gen + 1) gen _ 1
              g1 s1 d0 heq
        rw [Option.isSome_iff_exists] at hsome
        obtain ⟨dv, hdv⟩ := hsome
        have hdvne : dv ≠ 0 :=
          insertAux_ok_deepest_ne_zero u now (n :: rest) s gen none none 0
            g1 s1 d0 hz hg (by intro x hx; cases hx) heq dv hdv
        subst hdv
        rw [if_pos (by simpa using hdvne)] at hids
        rw [← hids]
        exact buildChainAux_forall₂ s1 u (n :: rest) 0 none none hpres

/-- C4: (a) an empty category path resolves to an empty ID chain and a
null deepest ID without touching the store; (b) a non-empty path that
resolves successfully returns a chain pairing the path names in input
order (root to leaf) with the IDs of their category rows, and the deepest
ID is the chain's last element (the nonzero-ID hypotheses reflect that
snowflake IDs and generator states are positive); (c) on a successful
publication, the reported primary category is the last element of the
reported chain and it is the `category_id` written on every post row
matching the payload's natural key. -/
theorem category_path_resolution_contract :
    (∀ (s : Store) (gen now u : Nat),
       resolveCategoryHierarchyWithSession s gen now [] u =
         (gen, .ok (s, [], none, []))) ∧
    (∀ (s : Store) (gen now u : Nat) (names : List String) (gen' : Nat)
       (s' : Store) (ids : List Nat) (deepest : Option Nat)
       (infos : List CategoryInfo),
       names ≠ [] →
       (∀ c ∈ s.categories, c.id ≠ 0) → 1 ≤ gen →
       resolveCategoryHierarchyWithSession s gen now names u =
         (gen', .ok (s', ids, deepest, infos)) →
       List.Forall₂
         (fun n cid => ∃ c, getByTitle s' n u = some c ∧ c.id = cid)
         names ids ∧
       deepest = ids.getLast?) ∧
    (∀ (store : Store) (gen now : Nat) (cOk : Bool) (p : Payload)
       (st : Store) (g : Nat) (res : SaveResult),
       saveArticle store gen now cOk p = (st, g, .ok res) →
       res.category_id = res.category_ids.getLast? ∧
       ∀ r ∈ st.posts, postKeyMatch p.user_id (slugOf p) r = true →
         r.category_id = res.category_id) := by
  refine ⟨fun s gen now u => rfl, ?_, ?_⟩
  · intro s gen now u names gen' s' ids deepest infos hnames hz hg hres
    exact resolve_nonempty_chain_spec s gen now u names gen' s' ids deepest
      infos hnames hz hg hres
  · intro store gen now cOk p st g res h
    have hspec := saveArticle_ok_spec store gen now cOk p st g res h
    exact ⟨hspec.1, fun r hr hk => (hspec.2 r hr hk).2⟩

/-- Witness for C4 at concrete inputs: the empty path on a fresh store;
the path `["tech", "ai"]` for user 7 on a fresh store, which creates rows
with IDs 1 and 2 and returns chain `[1, 2]` with deepest `some 2`; and a
publication of a post under that path, whose post row carries the deepest
category. -/
theorem category_path_resolution_contract_witness :
    (resolveCategoryHierarchyWithSession Store.empty 1 5 [] 7 =
      (1, .ok (Store.empty, [], none, []))) ∧
    (List.Forall₂
       (fun n cid => ∃ c,
         getByTitle
           { Store.empty with categories :=
               [⟨1, some 1, 0, 100, none, 7, "tech", 5, 5, false⟩,
                ⟨2, some 1, 1, 100, some 1, 7, "ai", 5, 5, false⟩] } n 7 =
           some c ∧ c.id = cid)
       ["tech", "ai"] [1, 2] ∧
     some 2 = ([1, 2] : List Nat).getLast?) ∧
    (some 101 = ([100, 101] : List Nat).getLast? ∧
     ∀ r ∈ (saveArticle Store.empty 100 5 true
         { title := some "T", slug := some "t", user_id := 7,
           categories := ["tech", "ai"] }).1.posts,
       postKeyMatch 7
         (slugOf { title := some "T", slug := some "t", user_id := 7,
                   categories := ["tech", "ai"] }) r = true →
       r.category_id = some 101) := by
  refine ⟨category_path_resolution_contract.1 Store.empty 1 5 7, ?_, ?_⟩
  · exact category_path_resolution_contract.2.1 Store.empty 1 5 7
      ["tech", "ai"] 3
      { Store.empty with categories :=
          [⟨1, some 1, 0, 100, none, 7, "tech", 5, 5, false⟩,
           ⟨2, some 1, 1, 100, some 1, 7, "ai", 5, 5, false⟩] }
      [1, 2] (some 2)
      [⟨1, "tech", 0, none, some 1, 7⟩, ⟨2, "ai", 1, some 1, some 1, 7⟩]
      (by decide) (by decide) (by decide) (by rfl)
  · exact category_path_resolution_contract.2.2 Store.empty 100 5 true
      { title := some "T", slug := some "t", user_id := 7,
        categories := ["tech", "ai"] }
      (saveArticle Store.empty 100 5 true
        { title := some "T", slug := some "t", user_id := 7,
          categories := ["tech", "ai"] }).1 103
      { article_id := 102, title := "T", slug := "t",
        categories := ["tech", "ai"], category_ids := [100, 101],
        category_id := some 101,
        published_url := "https://blog.example.com/blog/@unknown/t",
        image_count := 0, images := [] }
      (by rfl)

/-- Processing a path prefix that succeeds composes with the rest of the
path: the full run continues from the staged store, advanced generator and
implied parent the prefix produced (at some group and at the prefix's
depth). -/
theorem insertAux_append (u now : Nat) :
    ∀ (pre l2 : List String) (s : Store) (gen : Nat)
      (parent group : Option Nat) (level : Nat) (g1 : Nat) (s1 : Store)
      (p1 : Option Nat),
      insertCategoryHierarchyAux u now pre s gen parent group level =
        (g1, .ok (s1, p1)) →
      ∃ group1,
        insertCategoryHierarchyAux u now (pre ++ l2) s gen parent group
            level =
          insertCategoryHierarchyAux u now l2 s1 g1 p1 group1
            (level + pre.length) := by
  intro pre
  induction pre with
  | nil =>
    intro l2 s gen parent group level g1 s1 p1 h
    rw [insertAux_nil] at h
    simp only [Prod.mk.injEq, Except.ok.injEq] at h
    obtain ⟨hg, hs, hp⟩ := h
    subst hg
    subst hs
    subst hp
    exact ⟨group, by simp⟩
  | cons name pre' ih =>
    intro l2 s gen parent group level g1 s1 p1 h
    simp only [List.length_cons]
    rw [show level + (pre'.length + 1) = level + 1 + pre'.length from by
      omega]
    cases hfind : getByTitle s name u with
    | some c =>
      by_cases hpar : c.parent_id = parent
      · rw [insertAux_cons_found_ok u now name pre' s gen parent group level
          c hfind hpar] at h
        rw [List.cons_append,
          insertAux_cons_found_ok u now name (pre' ++ l2) s gen parent group
            level c hfind hpar]
        exact ih l2 s gen (some c.id) _ (level + 1) g1 s1 p1 h
      · rw [insertAux_cons_found_conflict u now name pre' s gen parent group
          level c hfind hpar] at h
        simp at h
    | none =>
      rw [insertAux_cons_new u now name pre' s gen parent group level
        hfind] at h
      rw [List.cons_append,
        insertAux_cons_new u now name (pre' ++ l2) s gen parent group level
          hfind]
      exact ih l2 _ (gen + 1) (some gen) _ (level + 1) g1 s1 p1 h

/-- C5: whenever any path segment's title already exists for the user
bound to a different parent than the path implies — at any position: the
segment may be the first, or follow reused or freshly created earlier
segments (the prefix hypothesis is the resolver's own processing of those
segments, which may have staged new rows in `s1`) — resolution raises a
FatalConflict carrying the offending title and both positions, and the
caller's store is left exactly as it was before the call: the staged
partial chain from the earlier segments is discarded, the existing row is
not overwritten, and a whole `_save_article` publication over such a path
returns the caller's store with the conflict surfaced. -/
theorem category_parent_conflict_fatal_and_store_unchanged
    (s : Store) (gen now u : Nat) (pre : List String) (b : String)
    (rest : List String) (g1 : Nat) (s1 : Store) (p1 : Option Nat)
    (cb : CategoryRow)
    (hpre : insertCategoryHierarchyAux u now pre s gen none none 0 =
      (g1, .ok (s1, p1)))
    (hb : getByTitle s1 b u = some cb) (hbpar : cb.parent_id ≠ p1) :
    resolveCategoryHierarchyWithSession s gen now (pre ++ b :: rest) u =
      (g1, .error ⟨b, cb.parent_id, p1⟩) ∧
    ∀ (cOk : Bool) (p : Payload), mediaOk p → p.title.isSome →
      p.user_id = u → p.categories = pre ++ b :: rest →
      saveArticle s gen now cOk p =
        (s, g1, .error (.fatalConflict ⟨b, cb.parent_id, p1⟩)) := by
  have hins : insertCategoryHierarchy s gen now (pre ++ b :: rest) u =
      (g1, .error ⟨b, cb.parent_id, p1⟩) := by
    unfold insertCategoryHierarchy
    obtain ⟨group1, happ⟩ := insertAux_append u now pre (b :: rest) s gen
      none none 0 g1 s1 p1 hpre
    rw [happ]
    rw [insertAux_cons_found_conflict u now b rest s1 g1 p1 group1 _ cb hb
      hbpar]
  have hres : resolveCategoryHierarchyWithSession s gen now
      (pre ++ b :: rest) u = (g1, .error ⟨b, cb.parent_id, p1⟩) := by
    unfold resolveCategoryHierarchyWithSession
    rw [if_neg (by simp)]
    rw [hins]
  refine ⟨hres, ?_⟩
  intro cOk p hm ht hu hcats
  obtain ⟨⟨c, i⟩, hv⟩ := step0_ok_of_mediaOk p hm
  obtain ⟨t, htitle⟩ := Option.isSome_iff_exists.mp ht
  unfold saveArticle
  rw [hv, htitle, hcats, hu]
  dsimp only
  rw [hres]

/-- Witness for C5: user 7 has only a root category "ai" (ID 2, parent
none); resolving `["tech", "ai"]` first freshly creates "tech" (ID 10,
advancing the generator to 11), then finds "ai" recorded at the root,
contradicting the implied parent 10 — the conflict surfaces, the freshly
staged "tech" row is discarded, and both the resolver and a publication
over the path return the caller's one-row store unchanged. -/
theorem category_parent_conflict_fatal_and_store_unchanged_witness :
    resolveCategoryHierarchyWithSession
        { Store.empty with categories :=
            [⟨2, some 2, 0, 100, none, 7, "ai", 4, 4, false⟩] }
        10 5 (["tech"] ++ "ai" :: []) 7 =
      (11, .error ⟨"ai", none, some 10⟩) ∧
    ∀ (cOk : Bool) (p : Payload), mediaOk p → p.title.isSome →
      p.user_id = 7 → p.categories = ["tech"] ++ "ai" :: [] →
      saveArticle
          { Store.empty with categories :=
              [⟨2, some 2, 0, 100, none, 7, "ai", 4, 4, false⟩] }
          10 5 cOk p =
        ({ Store.empty with categories :=
             [⟨2, some 2, 0, 100, none, 7, "ai", 4, 4, false⟩] },
         11, .error (.fatalConflict ⟨"ai", none, some 10⟩)) :=
  category_parent_conflict_fatal_and_store_unchanged
    { Store.empty with categories :=
        [⟨2, some 2, 0, 100, none, 7, "ai", 4, 4, false⟩] }
    10 5 7 ["tech"] "ai" [] 11
    { Store.empty with categories :=
        [⟨2, some 2, 0, 100, none, 7, "ai", 4, 4, false⟩,
         ⟨10, some 10, 0, 100, none, 7, "tech", 5, 5, false⟩] }
    (some 10) ⟨2, some 2, 0, 100, none, 7, "ai", 4, 4, false⟩
    (by rfl) (by rfl) (by decide)

/-! ## File-records loop lemmas -/

/-- A file dictionary whose record upsert succeeds in
`_save_file_records`: it has a local path, and the statement passes the
database checks (in particular `s3_key` is present, since the NOT NULL
`stored_uri` column receives it). -/
def fileSaveOk (f : FileData) : Prop :=
  f.local_path ≠ "" ∧
  fileRowChecks (originalFilenameOf f) (storedNameOf f) f.s3_key
    (some (getContentType (extOf f.local_path)))
    (some (extOf f.local_path)) = none

instance (f : FileData) : Decidable (fileSaveOk f) := by
  unfold fileSaveOk
  infer_instance

/-- The row `_save_file_records` inserts for a fresh file dictionary. -/
def mkFileRow (f : FileData) (gen now u post_id : Nat) : FileRow :=
  { id := gen
    user_id := some u
    post_id := some post_id
    content_type := some (getContentType (extOf f.local_path))
    ext := some (extOf f.local_path)
    original_filename := originalFilenameOf f
    stored_name := storedNameOf f
    s3_key := f.s3_key
    stored_uri := f.s3_key.getD ""
    file_size := none
    is_thumbnail := f.is_thumbnail.getD false
    created_at := now
    updated_at := now
    deleted := false }

/-- `find?` misses an append when it misses both parts. -/
theorem find?_append_none {α : Type} (p : α → Bool) (l1 l2 : List α)
    (h1 : l1.find? p = none) (h2 : l2.find? p = none) :
    (l1 ++ l2).find? p = none := by
  rw [List.find?_append, h1, h2]
  rfl

/-- Step equation: an entry without a local path is skipped. -/
theorem saveFilesLoop_cons_nopath (u post_id now : Nat) (f : FileData)
    (t : List FileData) (s : Store) (gen : Nat) (acc : List Nat)
    (h : f.local_path = "") :
    saveFilesLoop u post_id now (f :: t) s gen acc =
      saveFilesLoop u post_id now t s gen acc := by
  conv_lhs => unfold saveFilesLoop
  rw [if_pos h]

/-- Step equation: an entry whose upsert is rejected is logged and
skipped; the store and collected IDs are unchanged, the generator
advances. -/
theorem saveFilesLoop_cons_bad (u post_id now : Nat) (f : FileData)
    (t : List FileData) (s : Store) (gen : Nat) (acc : List Nat) (e : DbErr)
    (hlp : f.local_path ≠ "")
    (hchk : fileRowChecks (originalFilenameOf f) (storedNameOf f) f.s3_key
      (some (getContentType (extOf f.local_path)))
      (some (extOf f.local_path)) = some e) :
    saveFilesLoop u post_id now (f :: t) s gen acc =
      saveFilesLoop u post_id now t s (gen + 1) acc := by
  conv_lhs => unfold saveFilesLoop
  rw [if_neg hlp]
  dsimp only
  rw [upsertFileRecord_error s gen now u post_id (originalFilenameOf f)
    (storedNameOf f) (storedUriArgOf f) f.s3_key
    (some (getContentType (extOf f.local_path)))
    (some (extOf f.local_path)) none (f.is_thumbnail.getD false) e hchk]

/-- Step equation: a well-formed fresh entry is inserted at the end of the
files table and its fresh ID collected. -/
theorem saveFilesLoop_cons_good (u post_id now : Nat) (f : FileData)
    (t : List FileData) (s : Store) (gen : Nat) (acc : List Nat)
    (hok : fileSaveOk f)
    (hfresh : s.files.find? (fileKeyMatch u (storedNameOf f)) = none) :
    saveFilesLoop u post_id now (f :: t) s gen acc =
      saveFilesLoop u post_id now t
        { s with files := s.files ++ [mkFileRow f gen now u post_id] }
        (gen + 1) (acc ++ [gen]) := by
  conv_lhs => unfold saveFilesLoop
  rw [if_neg hok.1]
  dsimp only
  rw [upsertFileRecord_insert s gen now u post_id (originalFilenameOf f)
    (storedNameOf f) (storedUriArgOf f) f.s3_key
    (some (getContentType (extOf f.local_path)))
    (some (extOf f.local_path)) none (f.is_thumbnail.getD false) hok.2
    hfresh]
  rfl

/-- A batch of well-formed, fresh, pairwise-distinct entries is appended
to the files table in batch order, with names and thumbnail flags taken
from the entries and one fresh ID collected per entry. -/
theorem saveFilesLoop_all_good (u post_id now : Nat) :
    ∀ (fs : List FileData) (s : Store) (gen : Nat) (acc : List Nat),
      (∀ f ∈ fs, fileSaveOk f) →
      (∀ f ∈ fs, s.files.find? (fileKeyMatch u (storedNameOf f)) = none) →
      List.Pairwise (fun f g => storedNameOf f ≠ storedNameOf g) fs →
      ∃ rows,
        saveFilesLoop u post_id now fs s gen acc =
          ({ s with files := s.files ++ rows }, gen + fs.length,
           acc ++ rows.map (fun r => r.id)) ∧
        rows.map (fun r => r.stored_name) = fs.map storedNameOf ∧
        rows.map (fun r => r.is_thumbnail) =
          fs.map (fun f => f.is_thumbnail.getD false) ∧
        rows.length = fs.length := by
  intro fs
  induction fs with
  | nil =>
    intro s gen acc hgood hfresh hpw
    exact ⟨[], by simp [saveFilesLoop], rfl, rfl, rfl⟩
  | cons f t ih =>
    intro s gen acc hgood hfresh hpw
    rw [saveFilesLoop_cons_good u post_id now f t s gen acc
      (hgood f (by simp)) (hfresh f (by simp))]
    rw [List.pairwise_cons] at hpw
    obtain ⟨hpwhead, hpwtail⟩ := hpw
    obtain ⟨rows', hloop, hnames, hflags, hlen⟩ := ih
      { s with files := s.files ++ [mkFileRow f gen now u post_id] }
      (gen + 1) (acc ++ [gen])
      (fun g hg => hgood g (by simp [hg]))
      (fun g hg => by
        simp only
        refine find?_append_none _ _ _ (hfresh g (by simp [hg])) ?_
        have hne : storedNameOf f ≠ storedNameOf g := hpwhead g hg
        simp only [List.find?, fileKeyMatch, mkFileRow]
        rw [decide_eq_false (by simp [hne])])
      hpwtail
    refine ⟨mkFileRow f gen now u post_id :: rows', ?_, ?_, ?_, ?_⟩
    · rw [hloop]
      simp only [Prod.mk.injEq]
      refine ⟨?_, ?_, ?_⟩
      · simp [List.append_assoc]
      · simp only [List.length_cons]
        omega
      · simp [mkFileRow, List.append_assoc]
    · simp only [List.map_cons, hnames]
      rfl
    · simp only [List.map_cons, hflags]
      rfl
    · simp [hlen]

/-- Branch equation: `_save_file_records` with a thumbnail puts it first,
flagged, before the images. -/
theorem saveFileRecords_someThumb (s : Store) (gen now post_id : Nat)
    (images : List FileData) (t : FileData) (u : Nat) :
    saveFileRecords s gen now post_id images (some t) u =
      saveFilesLoop u post_id now
        ({ t with is_thumbnail := some true } ::
          images.map (fun i => { i with is_thumbnail := some false }))
        s gen [] := rfl

/-- Branch equation: `_save_file_records` without a thumbnail processes
the images alone. -/
theorem saveFileRecords_noThumb (s : Store) (gen now post_id : Nat)
    (images : List FileData) (u : Nat) :
    saveFileRecords s gen now post_id images none u =
      saveFilesLoop u post_id now
        (images.map (fun i => { i with is_thumbnail := some false }))
        s gen [] := rfl

/-- A batch with one rejected entry appends exactly the other entries'
rows, in order, and collects their IDs. -/
theorem saveFilesLoop_one_bad (u post_id now : Nat) :
    ∀ (l1 : List FileData) (l2 : List FileData) (bad : FileData) (s : Store)
      (gen : Nat) (acc : List Nat),
      bad.local_path ≠ "" → bad.s3_key = none →
      (∀ f ∈ l1 ++ l2, fileSaveOk f) →
      (∀ f ∈ l1 ++ l2, s.files.find? (fileKeyMatch u (storedNameOf f)) = none) →
      List.Pairwise (fun f g => storedNameOf f ≠ storedNameOf g) (l1 ++ l2) →
      ∃ rows,
        saveFilesLoop u post_id now (l1 ++ bad :: l2) s gen acc =
          ({ s with files := s.files ++ rows },
           gen + (l1.length + l2.length + 1),
           acc ++ rows.map (fun r => r.id)) ∧
        rows.map (fun r => r.stored_name) = (l1 ++ l2).map storedNameOf ∧
        rows.length = l1.length + l2.length := by
  intro l1
  induction l1 with
  | nil =>
    intro l2 bad s gen acc hblp hbkey hgood hfresh hpw
    have hchk : fileRowChecks (originalFilenameOf bad) (storedNameOf bad)
        bad.s3_key (some (getContentType (extOf bad.local_path)))
        (some (extOf bad.local_path)) = some .notNullViolation := by
      rw [hbkey]
      rfl
    rw [List.nil_append, saveFilesLoop_cons_bad u post_id now bad l2 s gen acc
      .notNullViolation hblp hchk]
    obtain ⟨rows, hloop, hnames, hflags, hlen⟩ :=
      saveFilesLoop_all_good u post_id now l2 s (gen + 1) acc
        (by simpa using hgood) (by simpa using hfresh) (by simpa using hpw)
    refine ⟨rows, ?_, by simpa using hnames, by simpa using hlen⟩
    rw [hloop]
    simp only [List.length_nil]
    rw [show gen + 1 + l2.length = gen + (0 + l2.length + 1) from by omega]
  | cons f t ih =>
    intro l2 bad s gen acc hblp hbkey hgood hfresh hpw
    rw [List.cons_append] at hgood hfresh hpw ⊢
    rw [saveFilesLoop_cons_good u post_id now f (t ++ bad :: l2) s gen acc
      (hgood f (by simp)) (hfresh f (by simp))]
    rw [List.pairwise_cons] at hpw
    obtain ⟨hpwhead, hpwtail⟩ := hpw
    obtain ⟨rows', hloop, hnames, hlen⟩ := ih l2 bad
      { s with files := s.files ++ [mkFileRow f gen now u post_id] }
      (gen + 1) (acc ++ [gen]) hblp hbkey
      (fun g hg => hgood g (List.mem_cons_of_mem f hg))
      (fun g hg => by
        simp only
        refine find?_append_none _ _ _
          (hfresh g (List.mem_cons_of_mem f hg)) ?_
        have hne : storedNameOf f ≠ storedNameOf g := hpwhead g hg
        simp only [List.find?, fileKeyMatch, mkFileRow]
        rw [decide_eq_false (by simp [hne])])
      hpwtail
    refine ⟨mkFileRow f gen now u post_id :: rows', ?_, ?_, ?_⟩
    · rw [hloop]
      simp only [Prod.mk.injEq]
      refine ⟨?_, ?_, ?_⟩
      · simp [List.append_assoc]
      · simp only [List.length_cons]
        omega
      · simp [mkFileRow, List.append_assoc]
    · simp only [List.map_cons, hnames]
      rfl
    · simp only [List.length_cons]
      omega

/-- Branch equation: the resolver on the empty path. -/
theorem resolve_empty (s : Store) (gen now u : Nat) :
    resolveCategoryHierarchyWithSession s gen now [] u =
      (gen, .ok (s, [], none, [])) := rfl

/-- The normalised status is always a legal enum value. -/
theorem statusValueOf_valid (p : Payload) :
    statusValueOf p = "public" ∨ statusValueOf p = "private" ∨
      statusValueOf p = "follower" := by
  unfold statusValueOf
  split
  next s hs =>
    by_cases h : s = "public" ∨ s = "private" ∨ s = "follower"
    · rw [if_pos h]; exact h
    · rw [if_neg h]; left; rfl
  next => left; rfl

/-- A truncated string fits its column. -/
theorem optLenLe_strTake (s : String) (n : Nat) :
    optLenLe (some (strTake s n)) n = true := by
  simp [optLenLe, strLen, strTake]

/-- A post upsert whose column checks pass always succeeds (insert or
conflict-update). -/
theorem upsertPost_ok_exists (s : Store) (gen now u : Nat)
    (title slug : String) (content description : Option String)
    (category_id : Option Nat) (status : String) (mt md ou oa : Option String)
    (hchk : postRowChecks title slug status mt md oa = none) :
    ∃ s' rid, upsertPost s gen now u title slug content description
      category_id status mt md ou oa = (.ok (s', rid), gen + 1) := by
  cases hfind : s.posts.find? (postKeyMatch u slug) with
  | some r =>
    exact ⟨_, _, upsertPost_conflict s gen now u title slug content
      description category_id status mt md ou oa r hchk hfind⟩
  | none =>
    exact ⟨_, _, upsertPost_insert s gen now u title slug content description
      category_id status mt md ou oa hchk hfind⟩

/-- A publication with a present title and slug, no categories, modest
field lengths, well-formed media and a healthy commit succeeds, whatever
its image batch does. -/
theorem saveArticle_succeeds (s : Store) (gen now : Nat) (p : Payload)
    (T S : String)
    (ht : p.title = some T) (hs : p.slug = some S) (hcats : p.categories = [])
    (hT : strLen T ≤ 115) (hSlug : strLen (slugOf p) ≤ 255)
    (hm : mediaOk p) :
    ∃ st g res, saveArticle s gen now true p = (st, g, .ok res) := by
  have hmd : optLenLe (match pyOrStr p.summary p.description with
      | some d => if d = "" then none else some (strTake d 170)
      | none => none) 170 = true := by
    cases hsd : pyOrStr p.summary p.description with
    | none => rfl
    | some d =>
      by_cases hd : d = ""
      · simp [hd, optLenLe]
      · simp [hd, optLenLe, strLen, strTake]
  have hoa : optLenLe (some (T ++ " thumbnail")) 125 = true := by
    have hT2 : T.data.length ≤ 115 := hT
    simp only [optLenLe, strLen, String.data_append, List.length_append,
      decide_eq_true_eq]
    have h10 : ([' ', 't', 'h', 'u', 'm', 'b', 'n', 'a', 'i', 'l'] :
      List Char).length = 10 := rfl
    omega
  have hchk : postRowChecks T (slugOf p) (statusValueOf p)
      (some (strTake T 70))
      (match pyOrStr p.summary p.description with
       | some d => if d = "" then none else some (strTake d 170)
       | none => none)
      (some (T ++ " thumbnail")) = none := by
    unfold postRowChecks
    rw [if_neg (fun hc => hc ⟨by unfold strLen at hT ⊢; omega, hSlug,
      optLenLe_strTake T 70, hmd, hoa⟩)]
    rw [if_neg (fun hc => hc (statusValueOf_valid p))]
  rcases hsa : saveArticle s gen now true p with ⟨st, g, r⟩
  cases r with
  | ok res => exact ⟨st, g, res, rfl⟩
  | error e =>
    exfalso
    obtain ⟨⟨c, i⟩, hv⟩ := step0_ok_of_mediaOk p hm
    unfold saveArticle at hsa
    dsimp only at hsa
    split at hsa
    · next heq0 =>
      rw [hv] at heq0
      simp at heq0
    · split at hsa
      · next heqT =>
        rw [ht] at heqT
        simp at heqT
      · split at hsa
        · next heqR =>
          rw [hcats, resolve_empty] at heqR
          simp at heqR
        · split at hsa
          · next heqU =>
            rename_i content2 images2 hstep0 xT T2 htitle2 xR gen1 s1 ids
              deepest infos hresolve xU e2 gen2
            rw [hcats, resolve_empty] at hresolve
            simp only [Prod.mk.injEq, Except.ok.injEq] at hresolve
            obtain ⟨hgen1, hs1, hids, hdeep, -⟩ := hresolve
            subst hgen1
            subst hs1
            subst hids
            subst hdeep
            rw [ht] at htitle2
            injection htitle2 with hT2
            subst hT2
            obtain ⟨s2, rid, hup⟩ := upsertPost_ok_exists s gen now p.user_id
              T (slugOf p) (some content2) (pyOrStr p.summary p.description)
              none (statusValueOf p) (some (strTake T 70)) _
              (match p.thumbnail with
               | some t => t.s3_url
               | none => none) (some (T ++ " thumbnail")) hchk
            rw [hup] at heqU
            simp at heqU
          · split at hsa
            · split at hsa
              · next heqSlug =>
                rw [hs] at heqSlug
                simp at heqSlug
              · simp at hsa
            · next hcommit =>
              exact hcommit rfl

/-! ## Claim theorems for the file records -/

/-- C7: a publication with a thumbnail and images writes the file records
thumbnail first, then the images in their supplied order; the thumbnail's
row has `is_thumbnail` true and every image row has it false; the batch
appends exactly one row per entry (so a thumbnail plus 3 images appends
exactly 4 rows), keyed to fresh IDs.  The hypotheses say every entry is
well-formed and its stored name free and distinct, so every upsert is an
insert. -/
theorem thumbnail_first_then_images_in_order
    (s : Store) (gen now post_id u : Nat) (t : FileData)
    (images : List FileData)
    (hgood : ∀ f ∈ t :: images, fileSaveOk f)
    (hfresh : ∀ f ∈ t :: images,
      s.files.find? (fileKeyMatch u (storedNameOf f)) = none)
    (hpw : List.Pairwise (fun f g => storedNameOf f ≠ storedNameOf g)
      (t :: images)) :
    ∃ rows,
      saveFileRecords s gen now post_id images (some t) u =
        ({ s with files := s.files ++ rows }, gen + (images.length + 1),
         rows.map (fun r => r.id)) ∧
      rows.length = images.length + 1 ∧
      rows.map (fun r => r.stored_name) =
        storedNameOf t :: images.map storedNameOf ∧
      rows.map (fun r => r.is_thumbnail) =
        true :: images.map (fun _ => false) := by
  have hgood' : ∀ f ∈ ({ t with is_thumbnail := some true } ::
      images.map (fun i => { i with is_thumbnail := some false })),
      fileSaveOk f := by
    intro g hg
    rcases List.mem_cons.mp hg with hg | hg
    · subst hg
      exact hgood t (by simp)
    · obtain ⟨i, hi, hupd⟩ := List.mem_map.mp hg
      subst hupd
      exact hgood i (by simp [hi])
  have hfresh' : ∀ f ∈ ({ t with is_thumbnail := some true } ::
      images.map (fun i => { i with is_thumbnail := some false })),
      s.files.find? (fileKeyMatch u (storedNameOf f)) = none := by
    intro g hg
    rcases List.mem_cons.mp hg with hg | hg
    · subst hg
      exact hfresh t (by simp)
    · obtain ⟨i, hi, hupd⟩ := List.mem_map.mp hg
      subst hupd
      exact hfresh i (by simp [hi])
  have hpw' : List.Pairwise (fun f g => storedNameOf f ≠ storedNameOf g)
      ({ t with is_thumbnail := some true } ::
        images.map (fun i => { i with is_thumbnail := some false })) := by
    rw [List.pairwise_cons] at hpw ⊢
    obtain ⟨h1, h2⟩ := hpw
    constructor
    · intro b hb
      obtain ⟨i, hi, hupd⟩ := List.mem_map.mp hb
      subst hupd
      exact h1 i hi
    · rw [List.pairwise_map]
      exact h2
  obtain ⟨rows, hloop, hnames, hflags, hlen⟩ :=
    saveFilesLoop_all_good u post_id now _ s gen [] hgood' hfresh' hpw'
  have hlenfs : ({ t with is_thumbnail := some true } ::
      images.map (fun i => { i with is_thumbnail := some false })).length =
      images.length + 1 := by simp
  refine ⟨rows, ?_, ?_, ?_, ?_⟩
  · rw [saveFileRecords_someThumb, hloop, hlenfs]
    simp
  · rw [hlen, hlenfs]
  · rw [hnames]
    simp only [List.map_cons, List.map_map]
    rfl
  · rw [hflags]
    simp only [List.map_cons, List.map_map]
    rfl

/-- C6: a publication whose file batch contains one record whose upsert
the database rejects (here: a file that was never uploaded, whose missing
`s3_key` violates the NOT NULL `stored_uri` column) logs and skips that
one record: every other record of the batch is still saved in order, the
returned file IDs are exactly the IDs of the saved (non-failing) records,
and the publication as a whole still succeeds. -/
theorem nonfatal_file_failure_skips_and_publication_succeeds
    (s : Store) (gen now post_id u : Nat) (g1 g2 : List FileData)
    (bad : FileData)
    (hblp : bad.local_path ≠ "") (hbkey : bad.s3_key = none)
    (hgood : ∀ f ∈ g1 ++ g2, fileSaveOk f)
    (hfresh : ∀ f ∈ g1 ++ g2,
      s.files.find? (fileKeyMatch u (storedNameOf f)) = none)
    (hpw : List.Pairwise (fun f g => storedNameOf f ≠ storedNameOf g)
      (g1 ++ g2)) :
    (∃ rows,
       saveFileRecords s gen now post_id (g1 ++ bad :: g2) none u =
         ({ s with files := s.files ++ rows },
          gen + (g1.length + g2.length + 1), rows.map (fun r => r.id)) ∧
       rows.map (fun r => r.stored_name) = (g1 ++ g2).map storedNameOf ∧
       rows.length = g1.length + g2.length) ∧
    (∀ (p : Payload) (T S : String),
       p.images = g1 ++ bad :: g2 → p.title = some T → p.slug = some S →
       p.categories = [] → strLen T ≤ 115 → strLen (slugOf p) ≤ 255 →
       mediaOk p →
       ∃ st g res, saveArticle s gen now true p = (st, g, .ok res)) := by
  constructor
  · have hgood' : ∀ f ∈ (g1.map (fun i => { i with is_thumbnail := some false })
        ++ g2.map (fun i => { i with is_thumbnail := some false })),
        fileSaveOk f := by
      intro g hg
      rw [← List.map_append] at hg
      obtain ⟨i, hi, hupd⟩ := List.mem_map.mp hg
      subst hupd
      exact hgood i hi
    have hfresh' : ∀ f ∈ (g1.map (fun i => { i with is_thumbnail := some false })
        ++ g2.map (fun i => { i with is_thumbnail := some false })),
        s.files.find? (fileKeyMatch u (storedNameOf f)) = none := by
      intro g hg
      rw [← List.map_append] at hg
      obtain ⟨i, hi, hupd⟩ := List.mem_map.mp hg
      subst hupd
      exact hfresh i hi
    have hpw' : List.Pairwise (fun f g => storedNameOf f ≠ storedNameOf g)
        (g1.map (fun i => { i with is_thumbnail := some false }) ++
          g2.map (fun i => { i with is_thumbnail := some false })) := by
      rw [← List.map_append, List.pairwise_map]
      exact hpw
    obtain ⟨rows, hloop, hnames, hlen⟩ := saveFilesLoop_one_bad u post_id now
      (g1.map (fun i => { i with is_thumbnail := some false }))
      (g2.map (fun i => { i with is_thumbnail := some false }))
      { bad with is_thumbnail := some false } s gen []
      hblp hbkey hgood' hfresh' hpw'
    refine ⟨rows, ?_, ?_, ?_⟩
    · rw [saveFileRecords_noThumb, List.map_append, List.map_cons]
      rw [hloop]
      simp [List.length_map]
    · rw [hnames, ← List.map_append, List.map_map]
      rfl
    · rw [hlen]
      simp [List.length_map]
  · intro p T S himg ht hs hcats hT hS hm
    exact saveArticle_succeeds s gen now p T S ht hs hcats hT hS hm

/-- Concrete thumbnail for evaluation. -/
def wFT : FileData :=
  { local_path := "imgs/t.png", s3_url := some "https://cdn/t.png",
    s3_key := some "7/k/t.png", stored_name := some "t.png" }

/-- Concrete image for evaluation. -/
def wF1 : FileData :=
  { local_path := "imgs/a.png", s3_url := some "https://cdn/a.png",
    s3_key := some "7/k/a.png", stored_name := some "a.png" }

/-- Concrete image for evaluation. -/
def wF2 : FileData :=
  { local_path := "imgs/b.png", s3_url := some "https://cdn/b.png",
    s3_key := some "7/k/b.png", stored_name := some "b.png" }

/-- Concrete image for evaluation. -/
def wF3 : FileData :=
  { local_path := "imgs/c.png", s3_url := some "https://cdn/c.png",
    s3_key := some "7/k/c.png", stored_name := some "c.png" }

/-- Concrete never-uploaded file (its `s3_key` is `None`, so the NOT NULL
`stored_uri` column rejects its row). -/
def wFBad : FileData :=
  { local_path := "imgs/x.png", stored_name := some "x.png" }

/-- Concrete payload whose image batch contains the rejected file. -/
def wPayload6 : Payload :=
  { title := some "Hello", slug := some "hello-post", user_id := 7,
    images := [wF1, wFBad, wF2] }

/-- C7 witness: a thumbnail plus 3 images yields exactly 4 rows,
thumbnail-flagged row first, then the images in order. -/
theorem thumbnail_first_then_images_in_order_witness :
    ∃ rows,
      saveFileRecords Store.empty 10 5 9 [wF1, wF2, wF3] (some wFT) 7 =
        ({ Store.empty with files := Store.empty.files ++ rows },
         10 + ([wF1, wF2, wF3].length + 1), rows.map (fun r => r.id)) ∧
      rows.length = [wF1, wF2, wF3].length + 1 ∧
      rows.map (fun r => r.stored_name) =
        storedNameOf wFT :: [wF1, wF2, wF3].map storedNameOf ∧
      rows.map (fun r => r.is_thumbnail) =
        true :: [wF1, wF2, wF3].map (fun _ => false) :=
  thumbnail_first_then_images_in_order Store.empty 10 5 9 7 wFT [wF1, wF2, wF3]
    (by intro f hf; fin_cases hf <;> exact ⟨by decide, by rfl⟩)
    (fun f hf => rfl)
    (by decide)

/-- C6 witness: a batch of three files whose middle record the database
rejects saves the other two, and the publication carrying that batch
succeeds. -/
theorem nonfatal_file_failure_skips_and_publication_succeeds_witness :
    (∃ rows,
       saveFileRecords Store.empty 10 5 9 ([wF1] ++ wFBad :: [wF2]) none 7 =
         ({ Store.empty with files := Store.empty.files ++ rows },
          10 + ([wF1].length + [wF2].length + 1), rows.map (fun r => r.id)) ∧
       rows.map (fun r => r.stored_name) = ([wF1] ++ [wF2]).map storedNameOf ∧
       rows.length = [wF1].length + [wF2].length) ∧
    (∃ st g res,
       saveArticle Store.empty 10 5 true wPayload6 = (st, g, .ok res)) :=
  have h := nonfatal_file_failure_skips_and_publication_succeeds
    Store.empty 10 5 9 7 [wF1] [wF2] wFBad
    (by decide) rfl
    (by intro f hf; fin_cases hf <;> exact ⟨by decide, by rfl⟩)
    (fun f hf => rfl)
    (by decide)
  ⟨h.1, h.2 wPayload6 "Hello" "hello-post" rfl rfl rfl rfl
    (by decide) (by decide) (by decide)⟩

end BlogMAS
